import Mathlib

/-!
Verification of the ONU power-monitor system's monitoring and provisioning
engine.  JavaScript sources are shallowly embedded: JS strings are Lean
`String`s (lists of characters), JS `null`/`undefined` string fields are
modelled as `Option` or as the empty string where the code only tests
truthiness, thrown exceptions are `Except` errors, and the regular
expressions used by the output parsers are embedded as deterministic
leftmost-match scanners (none of the patterns requires backtracking).
-/

namespace Onu

/-! ## JavaScript string primitives -/

/-- Substring test on character lists, mirroring `String.prototype.includes`. -/
def containsSub (needle : List Char) : List Char → Bool
  | [] => needle.isEmpty
  | c :: t => needle.isPrefixOf (c :: t) || containsSub needle t

/-- `hay.includes(needle)` for JS strings. -/
def jsIncludes (hay needle : String) : Bool :=
  containsSub needle.data hay.data

/-- Whitespace predicate standing in for the regex class `\s`. -/
def isWs (c : Char) : Bool :=
  c.isWhitespace

/-- `s.trim()`: strip whitespace from both ends. -/
def jsTrim (s : String) : String :=
  ⟨((s.data.dropWhile isWs).reverse.dropWhile isWs).reverse⟩

/-- JS `a || b` on strings: `b` when `a` is falsy (empty), else `a`. -/
def jsOr (a b : String) : String :=
  if a = "" then b else a

/-- JS `a || b` where `a` is a possibly-missing number (`0`, `null` and
`undefined` are all falsy). -/
def jsOrNat (a : Option Nat) (b : Nat) : Nat :=
  match a with
  | some n => if n = 0 then b else n
  | none => b

/-! ## Remote command channel (`lib/sshManager.js`)

The `close` handlers of `executeCommand` (control-router commands) and
`executeOnLHG60G` (commands tunneled to the device) decide, from the exit
code and the accumulated `stdout`/`stderr`, whether the promise resolves
or rejects.  We embed those decision functions; a rejection is `.error`. -/

/-- Result resolution of `SSHManager.executeCommand`: resolve on exit code 0,
or on benign stderr; reject only when stderr carries a failure marker. -/
def executeCommandClose (code : Int) (stdout stderr : String) :
    Except String (String × String × Int) :=
  if code = 0 ∨ (jsTrim stderr = "" ∧ jsIncludes stderr "failure" = false ∧
      jsIncludes stderr "error" = false) then
    .ok (stdout, stderr, code)
  else if jsIncludes stderr "failure" || jsIncludes stderr "error" ||
      jsIncludes stderr "invalid" then
    .error ("Command failed: " ++ jsOr stderr stdout)
  else
    .ok (stdout, stderr, code)

/-- Result resolution of `SSHManager.executeOnLHG60G`: reject exactly when
stderr carries a failure marker, regardless of exit code. -/
def executeOnLHG60GClose (stdout stderr : String) : Except String String :=
  if jsIncludes stderr "failure" || jsIncludes stderr "error" ||
      jsIncludes stderr "invalid" then
    .error ("Command failed: " ++ stderr)
  else
    .ok stdout

/-- stderr carries one of the explicit markers checked by the code. -/
def hasErrMarker (stderr : String) : Bool :=
  jsIncludes stderr "failure" || jsIncludes stderr "error" ||
    jsIncludes stderr "invalid"

/-- An execution result was treated as a command failure (promise rejected). -/
def rejected {α : Type} : Except String α → Bool
  | .error _ => true
  | .ok _ => false

/-! ## Provisioning reconciler (`lib/mikrotikProvisioning.js`)

Gateway state is the set of address assignments and NAT rules on the control
router.  The scoped `print` commands used by the existence checks are
modelled by rendering the matching entries to text, since the code inspects
the raw stdout with `includes`. -/

structure ControlConfig where
  control_ip : String
  lhg60g_ethernet_interface : String
deriving DecidableEq

structure DeviceConfig where
  name : String
  mikrotik_tunnel_ip : String
  mikrotik_ssh_port : Nat
  mikrotik_lhg60g_ip : String
deriving DecidableEq

structure NatRule where
  comment : String
  dst_address : String
  dst_port : Nat
  to_addresses : String
  to_ports : Nat
deriving DecidableEq

/-- Address assignments are (address text, interface) pairs. -/
structure GatewayState where
  addresses : List (String × String)
  natRules : List NatRule
deriving DecidableEq

/-- Output lines of `/ip address print where interface=...`: one line per
assignment on that interface, carrying the address text. -/
def printAddressLines (s : GatewayState) (iface : String) : List String :=
  (s.addresses.filter (fun a => a.2 == iface)).map (fun a => a.1)

/-- `checkIPAssignment`: scan each stdout line for the tunnel IP. -/
def checkIPAssignment (s : GatewayState) (tunnelIP iface : String) : Bool :=
  (printAddressLines s iface).any (fun line => jsIncludes line tunnelIP)

/-- `addIPAddress`: `/ip address add address="tip/24" interface=iface`. -/
def addIPAddress (s : GatewayState) (tunnelIP iface : String) : GatewayState :=
  { s with addresses := s.addresses ++ [(tunnelIP ++ "/24", iface)] }

/-- One print line of a NAT rule, carrying its fields. -/
def renderNatRule (r : NatRule) : String :=
  r.comment ++ " dstnat " ++ r.dst_address ++ " " ++ toString r.dst_port ++
    " tcp " ++ r.to_addresses ++ " " ++ toString r.to_ports ++ "\n"

def concatStrings : List String → String
  | [] => ""
  | s :: t => s ++ concatStrings t

/-- stdout of `/ip firewall nat print where dst-port=port`. -/
def natPrintOutput (s : GatewayState) (port : Nat) : String :=
  concatStrings ((s.natRules.filter (fun r => r.dst_port == port)).map renderNatRule)

/-- `checkNATRule`: the scoped output must mention both the port and the
device's inner address. -/
def checkNATRule (s : GatewayState) (d : DeviceConfig) : Bool :=
  jsIncludes (natPrintOutput s d.mikrotik_ssh_port) (toString d.mikrotik_ssh_port) &&
    jsIncludes (natPrintOutput s d.mikrotik_ssh_port) d.mikrotik_lhg60g_ip

/-- `addNATRule`: dst-nat rule (control-ip, port, tcp) → (inner ip, 22). -/
def addNATRule (s : GatewayState) (d : DeviceConfig) (c : ControlConfig) : GatewayState :=
  { s with natRules := s.natRules ++
      [{ comment := d.name, dst_address := c.control_ip, dst_port := d.mikrotik_ssh_port,
         to_addresses := d.mikrotik_lhg60g_ip, to_ports := 22 }] }

/-- Which gateway commands throw during a provisioning run: `connectFails`
models an unreachable gateway, the `add*Fails` flags a failing add command
(each with the thrown message). -/
structure ExecEnv where
  connectFails : Bool
  connectErr : String
  addIPFails : Bool
  addIPErr : String
  addNATFails : Bool
  addNATErr : String
deriving DecidableEq

/-- All gateway commands succeed: the gateway is reachable. -/
def okEnv : ExecEnv := ⟨false, "", false, "", false, ""⟩

/-- The `results` object built by `provisionDevice` / `deprovisionDevice`. -/
structure StepResults where
  success : Bool
  steps : List String
  warnings : List String
  error : Option String
  message : Option String
deriving DecidableEq

/-- NAT phase of `provisionDevice` (check-then-add, then overall success). -/
def provisionNATPhase (env : ExecEnv) (c : ControlConfig) (s : GatewayState)
    (d : DeviceConfig) (steps : List String) : GatewayState × StepResults :=
  if checkNATRule s d then
    (s, { success := true,
          steps := steps ++ ["NAT rule for port " ++ toString d.mikrotik_ssh_port ++
            " already exists"],
          warnings := [], error := none,
          message := some "Device provisioned successfully" })
  else if env.addNATFails then
    (s, { success := false,
          steps := steps ++ ["Error: Failed to add NAT rule: " ++ env.addNATErr],
          warnings := [],
          error := some ("Failed to add NAT rule: " ++ env.addNATErr),
          message := none })
  else
    (addNATRule s d c,
     { success := true,
       steps := steps ++ ["Added NAT rule for SSH port " ++ toString d.mikrotik_ssh_port],
       warnings := [], error := none,
       message := some "Device provisioned successfully" })

/-- `provisionDevice`: connect, check-then-add address, check-then-add NAT
rule; a thrown error anywhere lands in the single outer catch, which flags
failure and returns (the `finally` only closes the connection). -/
def provisionDevice (env : ExecEnv) (c : ControlConfig) (s : GatewayState)
    (d : DeviceConfig) : GatewayState × StepResults :=
  let steps0 := ["Retrieved control router configuration"]
  if env.connectFails then
    (s, { success := false, steps := steps0 ++ ["Error: " ++ env.connectErr],
          warnings := [], error := some env.connectErr, message := none })
  else
    let steps1 := steps0 ++ ["Connected to control router"]
    let iface := c.lhg60g_ethernet_interface
    if checkIPAssignment s d.mikrotik_tunnel_ip iface then
      provisionNATPhase env c s d
        (steps1 ++ ["IP address " ++ d.mikrotik_tunnel_ip ++ "/24 already exists on " ++ iface])
    else if env.addIPFails then
      (s, { success := false,
            steps := steps1 ++ ["Error: Failed to add IP address: " ++ env.addIPErr],
            warnings := [],
            error := some ("Failed to add IP address: " ++ env.addIPErr),
            message := none })
    else
      provisionNATPhase env c (addIPAddress s d.mikrotik_tunnel_ip iface) d
        (steps1 ++ ["Added IP address " ++ d.mikrotik_tunnel_ip ++ "/24 to " ++ iface])

/-! ## Deprovisioning and the subnet-usage check -/

/-- A device row as seen by `checkSubnetUsage` (`mikrotik_tunnel_ip` is also
stored on such rows but never read by the check; an empty string models a
missing/falsy field). -/
structure RemainingDevice where
  name : String
  device_type : String
  mikrotik_lhg60g_ip : String
  mikrotik_tunnel_ip : String
deriving DecidableEq

/-- `String.prototype.split` with a one-character separator. -/
def jsSplitChar (sep : Char) : List Char → List (List Char)
  | [] => [[]]
  | c :: rest =>
    let r := jsSplitChar sep rest
    if c = sep then [] :: r
    else
      match r with
      | [] => [[c]]
      | h :: t => (c :: h) :: t

/-- `s.split(sep)` for JS strings. -/
def jsSplit (s : String) (sep : Char) : List String :=
  (jsSplitChar sep s.data).map (fun l => ⟨l⟩)

/-- `checkSubnetUsage`: derive `a.b.c.0` from the tunnel IP and scan the
remaining devices' `mikrotik_lhg60g_ip` for the same subnet key. -/
def checkSubnetUsage (tunnelIP : String) (remainingDevices : List RemainingDevice) : Bool :=
  let parts := jsSplit tunnelIP '.'
  if parts.length ≠ 4 then false
  else
    let subnet := parts.getD 0 "" ++ "." ++ parts.getD 1 "" ++ "." ++ parts.getD 2 "" ++ ".0"
    remainingDevices.any fun device =>
      device.device_type == "mikrotik_lhg60g" && device.mikrotik_lhg60g_ip != "" &&
        (let deviceParts := jsSplit device.mikrotik_lhg60g_ip '.'
         deviceParts.length == 4 &&
           (deviceParts.getD 0 "" ++ "." ++ deviceParts.getD 1 "" ++ "." ++
             deviceParts.getD 2 "" ++ ".0") == subnet)

/-- `removeNATRule`: `/ip firewall nat remove [find where dst-port=... and
to-addresses=...]`. -/
def removeNATRule (s : GatewayState) (d : DeviceConfig) : GatewayState :=
  { s with natRules := s.natRules.filter fun r =>
      !(r.dst_port == d.mikrotik_ssh_port && r.to_addresses == d.mikrotik_lhg60g_ip) }

/-- `removeIPAddress`: `/ip address remove [find where address="tip/24" and
interface=...]`. -/
def removeIPAddress (s : GatewayState) (tunnelIP iface : String) : GatewayState :=
  { s with addresses := s.addresses.filter fun a =>
      !(a.1 == tunnelIP ++ "/24" && a.2 == iface) }

/-- `deprovisionDevice` with a reachable gateway and succeeding removals (the
claims under verification concern its removal decisions): remove the NAT
rule, then remove the address assignment unless the subnet is still in use. -/
def deprovisionDevice (c : ControlConfig) (s : GatewayState) (d : DeviceConfig)
    (remainingDevices : List RemainingDevice) : GatewayState × StepResults :=
  let steps2 := ["Retrieved control router configuration", "Connected to control router",
    "Removed NAT rule for port " ++ toString d.mikrotik_ssh_port]
  let s1 := removeNATRule s d
  if checkSubnetUsage d.mikrotik_tunnel_ip remainingDevices then
    (s1, { success := true,
           steps := steps2 ++ ["IP address " ++ d.mikrotik_tunnel_ip ++
             "/24 preserved (used by other devices)"],
           warnings := [], error := none,
           message := some "Device deprovisioned successfully" })
  else
    (removeIPAddress s1 d.mikrotik_tunnel_ip c.lhg60g_ethernet_interface,
     { success := true,
       steps := steps2 ++ ["Removed IP address " ++ d.mikrotik_tunnel_ip ++ "/24 from " ++
         c.lhg60g_ethernet_interface],
       warnings := [], error := none,
       message := some "Device deprovisioned successfully" })

/-! ## LHG60G telemetry parsers (`MikroTikMonitor`)

The two regexes `/rate:\s*(\d+(?:\.\d+)?)\s*(Mbps|Gbps)/i` and
`/rssi:\s*(-?\d+)/` are embedded as deterministic leftmost-match scanners;
neither pattern can require backtracking (after the greedy digit/whitespace
runs, the next pattern element can never match a character those runs
consumed). -/

/-- Case-insensitive literal matcher: `pat` is lowercase; returns the
remainder of `l` after consuming characters that lowercase to `pat`. -/
def matchLit : List Char → List Char → Option (List Char)
  | [], rest => some rest
  | _ :: _, [] => none
  | p :: ps, c :: cs => if c.toLower = p then matchLit ps cs else none

/-- Case-sensitive literal matcher. -/
def matchLitCS : List Char → List Char → Option (List Char)
  | [], rest => some rest
  | _ :: _, [] => none
  | p :: ps, c :: cs => if c = p then matchLitCS ps cs else none

/-- The regex class `\d`: exactly the characters `0`-`9`. -/
def isDigitChar (c : Char) : Bool := 48 ≤ c.toNat && c.toNat ≤ 57

/-- Numeric value of a digit character. -/
def digitVal (c : Char) : Nat := c.toNat - 48

/-- Value of a digit run, most significant first (as `parseInt`). -/
def digitsToNat (ds : List Char) : Nat :=
  ds.foldl (fun a c => a * 10 + digitVal c) 0

/-- Numerator of the exact value denoted by the decimal literal `ds.fs` over
the denominator `10 ^ fs.length` (as `parseFloat` on the matched number;
`fs = []` when the fraction group is absent). -/
def decimalNum (ds fs : List Char) : Nat :=
  digitsToNat ds * 10 ^ fs.length + digitsToNat fs

/-- `Math.round (n / d)` for a nonnegative exact fraction: round half up,
`⌊n/d + 1/2⌋ = (2n + d) / (2d)` in integer division. -/
def roundHalfUp (n d : Nat) : Nat := (2 * n + d) / (2 * d)

/-- The optional fraction group `(?:\.\d+)?`: at `l3`, consume `.digits`
when present (the group participates only when at least one digit follows
the dot); returns (fraction digits, remainder). -/
def fracGroup (l3 : List Char) : List Char × List Char :=
  match l3 with
  | c :: rest =>
    if c = '.' then
      let fsx := rest.takeWhile isDigitChar
      if fsx.isEmpty then ([], l3) else (fsx, rest.drop fsx.length)
    else ([], l3)
  | [] => ([], l3)

/-- The alternation `(Mbps|Gbps)/i`, reduced to its lowercased initial. -/
def unitOf (l5 : List Char) : Option Char :=
  match matchLit ['m', 'b', 'p', 's'] l5 with
  | some _ => some 'm'
  | none =>
    match matchLit ['g', 'b', 'p', 's'] l5 with
    | some _ => some 'g'
    | none => none

/-- The rate pattern after its `rate:` literal: optional whitespace, digits,
optional fraction, optional whitespace, unit. -/
def rateAfterLit (l1 : List Char) : Option (List Char × List Char × Char) :=
  let l2 := l1.dropWhile isWs
  let ds := l2.takeWhile isDigitChar
  if ds.isEmpty then none
  else
    let fracSplit := fracGroup (l2.drop ds.length)
    (unitOf (fracSplit.2.dropWhile isWs)).map fun u => (ds, fracSplit.1, u)

/-- Attempt the rate pattern at the head of `l`: literal `rate:` (caseless),
optional whitespace, digits, an optional `.digits` group, optional
whitespace, then `Mbps`/`Gbps` (caseless).  Returns (integer digits,
fraction digits, lowercased unit initial). -/
def tryRateAt (l : List Char) : Option (List Char × List Char × Char) :=
  (matchLit ['r', 'a', 't', 'e', ':'] l).bind rateAfterLit

/-- Leftmost match of the rate pattern. -/
def findRate : List Char → Option (List Char × List Char × Char)
  | [] => none
  | c :: cs =>
    match tryRateAt (c :: cs) with
    | some r => some r
    | none => findRate cs

/-- `parsePortSpeed` on the character list: find `rate: <number><unit>` and
normalize to an integer count of megabits (`Gbps` values are multiplied by
1000; `Math.round` afterwards). -/
def parsePortSpeedL (l : List Char) : Option ℕ :=
  (findRate l).map fun r =>
    if r.2.2 = 'g' then roundHalfUp (decimalNum r.1 r.2.1 * 1000) (10 ^ r.2.1.length)
    else roundHalfUp (decimalNum r.1 r.2.1) (10 ^ r.2.1.length)

/-- `parsePortSpeed`. -/
def parsePortSpeed (output : String) : Option ℕ :=
  parsePortSpeedL output.data

/-- Attempt the rssi pattern at the head of `l`: literal `rssi:`, optional
whitespace, then an optionally-signed digit run, parsed with `parseInt`. -/
def tryRssiAt (l : List Char) : Option ℤ :=
  match matchLitCS ['r', 's', 's', 'i', ':'] l with
  | none => none
  | some l1 =>
    let l2 := l1.dropWhile isWs
    let signSplit : Bool × List Char :=
      match l2 with
      | c :: rest => if c = '-' then (true, rest) else (false, l2)
      | [] => (false, l2)
    let ds := signSplit.2.takeWhile isDigitChar
    if ds.isEmpty then none
    else if signSplit.1 then some (-(digitsToNat ds : ℤ))
    else some (digitsToNat ds : ℤ)

/-- Leftmost match of the rssi pattern. -/
def findRssi : List Char → Option ℤ
  | [] => none
  | c :: cs =>
    match tryRssiAt (c :: cs) with
    | some r => some r
    | none => findRssi cs

/-- `parseRSSI`. -/
def parseRSSI (output : String) : Option ℤ :=
  findRssi output.data

/-- `formatPortSpeed`: `--` for a missing speed, `x.yGbps` at or above 1000
(exact decimal rendering of `speed/1000`, trailing zeros stripped, as JS
prints such numbers), else `xMbps`. -/
def formatPortSpeed (x : Option ℕ) : String :=
  match x with
  | none => "--"
  | some n =>
    if n ≥ 1000 then
      if n % 1000 = 0 then toString (n / 1000) ++ "Gbps"
      else
        let frDigits := [Char.ofNat (48 + n % 1000 / 100), Char.ofNat (48 + n % 100 / 10),
          Char.ofNat (48 + n % 10)]
        toString (n / 1000) ++ "." ++
          (⟨(frDigits.reverse.dropWhile (fun c => c = '0')).reverse⟩ : String) ++ "Gbps"
    else toString n ++ "Mbps"

/-- Metrics bag assembled by `monitorMikroTik` (the wall-clock timestamp
field is omitted from the model). -/
structure MikroTikData where
  rssi : Option ℤ
  rssiUnit : String
  portSpeed : Option ℕ
  portSpeedUnit : String
  portSpeedRaw : String
deriving DecidableEq

structure MonitorResult where
  success : Bool
  data : Option MikroTikData
  error : Option String
deriving DecidableEq

/-- `getRSSI`: run the monitor command through the tunnel; a thrown error is
caught and becomes `null`, otherwise the output is parsed. -/
def getRSSI (outcome : Except String String) : Option ℤ :=
  match outcome with
  | .error _ => none
  | .ok out => parseRSSI out

/-- `getPortSpeed`: same shape for the ethernet monitor command. -/
def getPortSpeed (outcome : Except String String) : Option ℕ :=
  match outcome with
  | .error _ => none
  | .ok out => parsePortSpeed out

/-- `monitorMikroTik`, as a function of the control-router configuration row
and the outcomes of the two independent command round-trips. -/
def monitorMikroTik (cfg : Option ControlConfig)
    (rssiCmd speedCmd : Except String String) : MonitorResult :=
  match cfg with
  | none =>
    { success := false, data := none,
      error := some "Control router configuration not found" }
  | some _ =>
    let rssi := getRSSI rssiCmd
    let portSpeed := getPortSpeed speedCmd
    if rssi = none ∧ portSpeed = none then
      { success := false, data := none,
        error := some "Failed to retrieve monitoring data" }
    else
      let dataRec : MikroTikData :=
        { rssi := rssi, rssiUnit := "dBm", portSpeed := portSpeed,
          portSpeedUnit := "Mbps", portSpeedRaw := formatPortSpeed portSpeed }
      { success := true, data := some dataRec, error := none }

/-! ## ONU optical parser (`lib/onuMonitor.js`)

`extractOpticInfo` finds the `stOpticInfo(...)` construct with the regex
`/var\s+opticInfos\s*=\s*new\s+Array\(new\s+stOpticInfo\(([^)]+)\)/i`
(embedded below as a leftmost-match scanner), pulls every `"..."` value out
of the captured parameter text, and decodes the four power/voltage/
temperature values, hex-unescaping them when the escape marker `\x` is
present in the RX value (`decodeHexString` / `detectUIType`). -/

/-- The regex class `[0-9A-Fa-f]`. -/
def isHexDigitChar (c : Char) : Bool :=
  (48 ≤ c.toNat && c.toNat ≤ 57) || (97 ≤ c.toNat && c.toNat ≤ 102) ||
    (65 ≤ c.toNat && c.toNat ≤ 70)

/-- `parseInt(hex, 16)` on one hex digit. -/
def hexVal (c : Char) : Nat :=
  if 48 ≤ c.toNat && c.toNat ≤ 57 then c.toNat - 48
  else if 97 ≤ c.toNat && c.toNat ≤ 102 then c.toNat - 97 + 10
  else if 65 ≤ c.toNat && c.toNat ≤ 70 then c.toNat - 65 + 10
  else 0

/-- `decodeHexString`'s global replace of `/\\x([0-9A-Fa-f]{2})/` by
`String.fromCharCode(parseInt(hex, 16))`, scanning left to right. -/
def decodeHex : List Char → List Char
  | [] => []
  | c0 :: c1 :: c2 :: c3 :: t3 =>
    if c0 = '\\' ∧ c1 = 'x' ∧ isHexDigitChar c2 = true ∧ isHexDigitChar c3 = true then
      Char.ofNat (hexVal c2 * 16 + hexVal c3) :: decodeHex t3
    else c0 :: decodeHex (c1 :: c2 :: c3 :: t3)
  | c0 :: t0 => c0 :: decodeHex t0

/-- `decodeHexString`. -/
def decodeHexString (s : String) : String := ⟨decodeHex s.data⟩

/-- `detectUIType`: hex escapes present means the legacy Blue UI encoding. -/
def detectUIType (value : String) : String :=
  if jsIncludes value "\\x" then "blue" else "red"

/-- The global quoted-value extraction `/"([^"]*)"/g` as a single-pass
scanner over the parameter text: pairs of quotes delimit values; a final
unmatched quote yields nothing further. -/
def extractQuotedAux : List Char → Bool → List Char → List (List Char)
  | [], _, _ => []
  | c :: t, false, acc =>
    if c = '"' then extractQuotedAux t true [] else extractQuotedAux t false acc
  | c :: t, true, acc =>
    if c = '"' then acc :: extractQuotedAux t false []
    else extractQuotedAux t true (acc ++ [c])

def extractQuoted (l : List Char) : List (List Char) :=
  extractQuotedAux l false []

/-- `\s+`: at least one whitespace character, consumed greedily. -/
def ws1 : List Char → Option (List Char)
  | [] => none
  | c :: t => if isWs c then some (t.dropWhile isWs) else none

/-- Attempt the `opticInfos` pattern at the head of `l`; returns the text
captured by `([^)]+)`. -/
def tryOpticAt (l : List Char) : Option (List Char) :=
  (matchLit ['v', 'a', 'r'] l).bind fun l1 =>
  (ws1 l1).bind fun l2 =>
  (matchLit ['o', 'p', 't', 'i', 'c', 'i', 'n', 'f', 'o', 's'] l2).bind fun l3 =>
  (matchLit ['='] (l3.dropWhile isWs)).bind fun l5 =>
  (matchLit ['n', 'e', 'w'] (l5.dropWhile isWs)).bind fun l7 =>
  (ws1 l7).bind fun l8 =>
  (matchLit ['a', 'r', 'r', 'a', 'y', '(', 'n', 'e', 'w'] l8).bind fun l10 =>
  (ws1 l10).bind fun l11 =>
  (matchLit ['s', 't', 'o', 'p', 't', 'i', 'c', 'i', 'n', 'f', 'o', '('] l11).bind fun l12 =>
  let params := l12.takeWhile (fun c => c != ')')
  if params.isEmpty then none
  else if l12.drop params.length = [] then none
  else some params

/-- Leftmost match of the `opticInfos` pattern. -/
def findOptic : List Char → Option (List Char)
  | [] => none
  | c :: cs =>
    match tryOpticAt (c :: cs) with
    | some r => some r
    | none => findOptic cs

structure OpticInfo where
  txPower : String
  rxPower : String
  voltage : String
  temperature : String
  uiType : String
deriving DecidableEq

/-- Value decoding of `extractOpticInfo` from the extracted quoted values
(the first value is the port identifier and is skipped). -/
def extractOpticValues (values : List String) : Option OpticInfo :=
  if values.length < 5 then none
  else
    let txRaw := values.getD 1 ""
    let rxRaw := values.getD 2 ""
    let voltageRaw := values.getD 3 ""
    let temperatureRaw := values.getD 4 ""
    let uiType := detectUIType rxRaw
    some { txPower := if uiType = "blue" then jsTrim (decodeHexString txRaw) else jsTrim txRaw,
           rxPower := if uiType = "blue" then jsTrim (decodeHexString rxRaw) else jsTrim rxRaw,
           voltage := if uiType = "blue" then jsTrim (decodeHexString voltageRaw)
             else jsTrim voltageRaw,
           temperature := if uiType = "blue" then jsTrim (decodeHexString temperatureRaw)
             else jsTrim temperatureRaw,
           uiType := uiType }

/-- `extractOpticInfo`. -/
def extractOpticInfo (html : String) : Option OpticInfo :=
  match findOptic html.data with
  | none => none
  | some params => extractOpticValues ((extractQuoted params).map fun l => (⟨l⟩ : String))

/-- One hex digit, upper case (as produced when hex-encoding a value). -/
def hexDigitOf (n : Nat) : Char :=
  if n < 10 then Char.ofNat (48 + n) else Char.ofNat (65 + n - 10)

/-- The `\xHH` escape of one character. -/
def hexEncodeChar (c : Char) : List Char :=
  ['\\', 'x', hexDigitOf (c.toNat / 16), hexDigitOf (c.toNat % 16)]

/-- Hex-encode a text as the Blue UI does: every character escaped. -/
def hexEncode : List Char → List Char
  | [] => []
  | c :: t => hexEncodeChar c ++ hexEncode t

def hexEncodeStr (s : String) : String := ⟨hexEncode s.data⟩

/-- The parameter text of a `stOpticInfo(...)` call carrying the given
quoted values. -/
def renderParamsL : List String → List Char
  | [] => []
  | v :: t => '"' :: (v.data ++ ('"' :: ',' :: renderParamsL t))

/-- A page fragment declaring `opticInfos` with the given quoted values. -/
def renderOpticHtml (values : List String) : String :=
  ⟨"var opticInfos = new Array(new stOpticInfo(".data ++ (renderParamsL values ++ [')'])⟩

/-- First three octets of a dotted IP string. -/
def firstThreeOctets (ip : String) : List String :=
  (jsSplit ip '.').take 3

/-- Spec reading of "shares the third-octet prefix": both strings are dotted
quads whose first three octets agree. -/
def sharesSubnetPrefix (ipA ipB : String) : Prop :=
  (jsSplit ipA '.').length = 4 ∧ (jsSplit ipB '.').length = 4 ∧
    firstThreeOctets ipA = firstThreeOctets ipB

instance (a b : String) : Decidable (sharesSubnetPrefix a b) := by
  unfold sharesSubnetPrefix
  exact inferInstance

/-! ## Poll retry loop (`lib/monitoringScheduler.js` monitorWithRetry) -/

/-- Observable result of one poll: mirrors the `{success, error}` objects the
monitors and `monitorWithRetry` return. -/
structure PollResult where
  success : Bool
  error : Option String
deriving DecidableEq

/-- One attempt of the telemetry extractor either returns a result object or
throws with a message. -/
inductive AttemptOutcome where
  | ret : PollResult → AttemptOutcome
  | thrown : String → AttemptOutcome
deriving DecidableEq

/-- Side effects of the retry loop: an attempt numbered from 1, or a
`setTimeout` wait in milliseconds. -/
inductive RetryEvent where
  | attempt : Nat → RetryEvent
  | wait : Nat → RetryEvent
deriving DecidableEq

/-- JS `o || d` where `o` is a possibly-null string (`null` and `""` falsy). -/
def jsOrStrOpt : Option String → String → String
  | none, d => d
  | some s, d => jsOr s d

/-- Whether an attempt outcome counts as a failure for the loop (thrown, or a
returned object with falsy `success`). -/
def attemptFails : AttemptOutcome → Bool
  | .ret r => !r.success
  | .thrown _ => true

/-- The message `monitorWithRetry` records into `lastError` for a failed
attempt: `result.error || 'Unknown error'`, or a thrown message. -/
def attemptErrMsg : AttemptOutcome → String
  | .ret r => jsOrStrOpt r.error "Unknown error"
  | .thrown msg => msg

/-- The `for (attempt = 1; attempt <= maxAttempts; ...)` loop of
`monitorWithRetry`, counting down the remaining attempts `k` (the current
attempt number is `maxA - k + 1` at entry `k + 1`); returns the result together
with the attempt/wait event trace. -/
def retryLoop (ext : Nat → AttemptOutcome) (delay maxA : Nat) :
    Nat → Option String → PollResult × List RetryEvent
  | 0, le =>
      ({ success := false, error := some (jsOrStrOpt le "All retry attempts failed") }, [])
  | k + 1, _ =>
      match ext (maxA - k) with
      | .ret r =>
          if r.success then (r, [RetryEvent.attempt (maxA - k)])
          else
            ((retryLoop ext delay maxA k (some (jsOrStrOpt r.error "Unknown error"))).1,
             RetryEvent.attempt (maxA - k) ::
               (if k = 0 then [] else [RetryEvent.wait delay]) ++
               (retryLoop ext delay maxA k (some (jsOrStrOpt r.error "Unknown error"))).2)
      | .thrown msg =>
          ((retryLoop ext delay maxA k (some msg)).1,
           RetryEvent.attempt (maxA - k) ::
             (if k = 0 then [] else [RetryEvent.wait delay]) ++
             (retryLoop ext delay maxA k (some msg)).2)

/-- `monitorWithRetry` (src/lib/monitoringScheduler.js:191-236): resolve the
attempt and delay settings with their JS defaults, then run the loop. -/
def monitorWithRetry (ext : Nat → AttemptOutcome)
    (retryAttempts retryDelay : Option Nat) : PollResult × List RetryEvent :=
  retryLoop ext ((jsOrNat retryDelay 3) * 1000) (jsOrNat retryAttempts 3)
    (jsOrNat retryAttempts 3) none

/-! ## ONU login and monitor entry (`lib/onuMonitor.js` login, monitorONU) -/

/-- An HTTP response as `login` consumes it: the optional `set-cookie`
header list and the body text. -/
structure HttpResponse where
  setCookie : Option (List String)
  body : String

/-- Outcomes of the HTTP exchanges `login` performs: the login-page GET, the
AJAX token POST (whose thrown errors are swallowed), and the `/login.cgi`
POST as a function of the CSRF token placed in the form. An `Except.error`
is a thrown/rejected request. -/
structure OnuEnv where
  loginPage : Except String HttpResponse
  ajaxToken : Except String String
  loginResp : String → Except String HttpResponse

/-- Result object of `login`. -/
structure LoginResult where
  success : Bool
  cookies : List (String × String)

/-- JS object-key assignment `m[k] = v` on an association list. -/
def setAssoc (m : List (String × String)) (k v : String) : List (String × String) :=
  if m.any (fun p => p.1 = k) then m.map (fun p => if p.1 = k then (k, v) else p)
  else m ++ [(k, v)]

/-- `parseCookies` (src/lib/onuMonitor.js:18-31): for each header take the
part before the first semicolon, split at `=`, and keep exact two-part
splits as key/value entries. -/
def parseCookies (headers : List String) : List (String × String) :=
  headers.foldl (fun cookies cookie =>
    if (jsSplit ((jsSplit cookie ';').getD 0 "") '=').length = 2 then
      setAssoc cookies ((jsSplit ((jsSplit cookie ';').getD 0 "") '=').getD 0 "")
        ((jsSplit ((jsSplit cookie ';').getD 0 "") '=').getD 1 "")
    else cookies) []

/-- One-position matcher for the CSRF-token pattern of `extractToken`
(src/lib/onuMonitor.js:35-38): the literal text of the helper function
declaration case-insensitively, optional whitespace, an opening brace,
optional whitespace, the return keyword, optional whitespace, then a
nonempty single-quoted token that must be closed. -/
def tryTokenAt (l : List Char) : Option (List Char) :=
  match matchLit "function getrandcnt()".data l with
  | none => none
  | some r1 =>
    match r1.dropWhile isWs with
    | [] => none
    | c :: r2 =>
      if c = Char.ofNat 123 then
        match matchLit "return".data (r2.dropWhile isWs) with
        | none => none
        | some r3 =>
          match r3.dropWhile isWs with
          | [] => none
          | q :: r4 =>
            if q = Char.ofNat 39 then
              if (r4.takeWhile (fun d => d ≠ Char.ofNat 39)).isEmpty then none
              else if r4.drop (r4.takeWhile (fun d => d ≠ Char.ofNat 39)).length = [] then
                none
              else some (r4.takeWhile (fun d => d ≠ Char.ofNat 39))
            else none
      else none

/-- Leftmost-match scan for the token pattern. -/
def findToken : List Char → Option (List Char)
  | [] => none
  | c :: cs =>
    match tryTokenAt (c :: cs) with
    | some r => some r
    | none => findToken cs

/-- `extractToken`: the first match's capture group, else the empty string. -/
def extractToken (html : String) : String :=
  match findToken html.data with
  | none => ""
  | some tok => ⟨tok⟩

/-- JS `s.startsWith(pre)`. -/
def jsStartsWith (s pre : String) : Bool :=
  pre.data.isPrefixOf s.data

/-- JS `s.replace(pat, '')` for a string pattern: delete the leftmost
occurrence only. -/
def removeFirstAux (pat : List Char) : List Char → List Char
  | [] => []
  | c :: t =>
    if pat.isPrefixOf (c :: t) then (c :: t).drop pat.length
    else c :: removeFirstAux pat t

/-- The session-cookie value one loop iteration of `login` stores:
`cookie.split(';')[0].replace('Cookie=', '')`. -/
def cookieNewVal (cookie : String) : String :=
  ⟨removeFirstAux "Cookie=".data ((jsSplit cookie ';').getD 0 "").data⟩

/-- The `for (const cookie of cookieHeader)` loop over the `/login.cgi`
set-cookie headers (src/lib/onuMonitor.js:183-197): a `Cookie=`-prefixed
header updates the stored session cookie, and a stored value containing
`sid=` returns early; both this early return and the fall-through return
carry `success := true`. -/
def scanLoginCookies : List String → List (String × String) → LoginResult
  | [], sc => { success := true, cookies := sc }
  | cookie :: rest, sc =>
    if jsStartsWith cookie "Cookie=" then
      if jsIncludes (cookieNewVal cookie) "sid=" then
        { success := true, cookies := setAssoc sc "Cookie" (cookieNewVal cookie) }
      else scanLoginCookies rest (setAssoc sc "Cookie" (cookieNewVal cookie))
    else scanLoginCookies rest sc

/-- The cookies parsed from the login page's `set-cookie` header, if any. -/
def initialCookies (page : HttpResponse) : List (String × String) :=
  match page.setCookie with
  | some hs => parseCookies hs
  | none => []

/-- CSRF-token resolution of `login`: the page token, or on a falsy page
token the trimmed AJAX body when that request succeeds with truthy data
(its errors are swallowed). -/
def resolveCsrf (page : HttpResponse) (ajax : Except String String) : String :=
  if extractToken page.body = "" then
    match ajax with
    | .error _ => extractToken page.body
    | .ok d => if d = "" then extractToken page.body else jsTrim d
  else extractToken page.body

/-- `login` (src/lib/onuMonitor.js:123-200): fetch the login page, resolve
the CSRF token, post the form; a missing `set-cookie` on the reply falls
through to the final return, otherwise the cookie scan runs. Thrown
request errors propagate as `Except.error`. -/
def login (env : OnuEnv) : Except String LoginResult :=
  match env.loginPage with
  | .error e => .error e
  | .ok page =>
    match env.loginResp (resolveCsrf page env.ajaxToken) with
    | .error e => .error e
    | .ok resp =>
      match resp.setCookie with
      | some hs => .ok (scanLoginCookies hs (initialCookies page))
      | none => .ok { success := true, cookies := initialCookies page }

/-- Environment of `monitorONU`: the login exchanges plus the optical-data
fetch outcome (`getRxOpticalPower`, whose thrown error reaches the outer
catch; the optional port-speed fetch catches its own errors and cannot
change the result shape). -/
structure MonitorOnuEnv where
  onu : OnuEnv
  rxData : Except String String

/-- Result object of `monitorONU`. -/
structure OnuMonitorResult where
  success : Bool
  error : Option String
  data : Option String

/-- `monitorONU` (src/lib/onuMonitor.js:482-523): login, guard on
`loginResult.success`, fetch optical data; thrown errors become
`success: false` with the thrown message. -/
def monitorONU (env : MonitorOnuEnv) : OnuMonitorResult :=
  match login env.onu with
  | .error e => { success := false, error := some e, data := none }
  | .ok loginResult =>
    if loginResult.success = false then
      { success := false, error := some "Login failed", data := none }
    else
      match env.rxData with
      | .error e => { success := false, error := some e, data := none }
      | .ok d => { success := true, error := none, data := some d }

/-! # Theorems -/

/-! ## String lemmas -/

theorem isPrefixOf_append_self (n t : List Char) : n.isPrefixOf (n ++ t) = true := by
  induction n with
  | nil => simp
  | cons c cs ih => simp [List.isPrefixOf, ih]

theorem containsSub_cons (n : List Char) (c : Char) (t : List Char) :
    containsSub n (c :: t) = (n.isPrefixOf (c :: t) || containsSub n t) := rfl

theorem containsSub_append_self (n t : List Char) : containsSub n (n ++ t) = true := by
  cases n with
  | nil => cases t <;> rfl
  | cons c cs =>
    show ((c :: cs).isPrefixOf ((c :: cs) ++ t) || containsSub (c :: cs) (cs ++ t)) = true
    rw [isPrefixOf_append_self, Bool.true_or]

theorem containsSub_middle (p n q : List Char) : containsSub n (p ++ n ++ q) = true := by
  induction p with
  | nil => simpa using containsSub_append_self n q
  | cons c cs ih =>
    show (n.isPrefixOf ((c :: cs) ++ n ++ q) || containsSub n (cs ++ n ++ q)) = true
    rw [ih, Bool.or_true]

theorem containsSub_false_of_ws (n l : List Char)
    (hn : ∃ c ∈ n, isWs c = false) (hl : ∀ c ∈ l, isWs c = true) :
    containsSub n l = false := by
  induction l with
  | nil =>
    obtain ⟨c, hc, -⟩ := hn
    cases n with
    | nil => simp at hc
    | cons d ds => rfl
  | cons c t ih =>
    have ht : ∀ x ∈ t, isWs x = true := fun x hx => hl x (by simp [hx])
    have hpre : n.isPrefixOf (c :: t) = false := by
      by_contra hb
      have hp : n <+: c :: t :=
        List.isPrefixOf_iff_prefix.mp (by revert hb; cases n.isPrefixOf (c :: t) <;> simp)
      obtain ⟨d, hd, hdw⟩ := hn
      have : isWs d = true := hl d (hp.subset hd)
      rw [hdw] at this
      exact Bool.false_ne_true this
    rw [containsSub_cons, hpre, Bool.false_or]
    exact ih ht

theorem all_ws_of_jsTrim_eq_empty (s : String) (h : jsTrim s = "") :
    ∀ c ∈ s.data, isWs c = true := by
  have hdata : ((s.data.dropWhile isWs).reverse.dropWhile isWs).reverse = [] := by
    have := congrArg String.data h
    simpa [jsTrim] using this
  have h2 : (s.data.dropWhile isWs).reverse.dropWhile isWs = [] := by
    simpa using congrArg List.reverse hdata
  have h3 : ∀ c ∈ (s.data.dropWhile isWs).reverse, isWs c = true :=
    List.dropWhile_eq_nil_iff.mp h2
  have h4 : ∀ c ∈ s.data.dropWhile isWs, isWs c = true := by
    intro c hc
    exact h3 c (by simpa using hc)
  intro c hc
  rw [← List.takeWhile_append_dropWhile (p := isWs) (l := s.data)] at hc
  rcases List.mem_append.mp hc with h5 | h5
  · exact List.mem_takeWhile_imp h5
  · exact h4 c h5

theorem jsIncludes_false_of_trim_empty (s needle : String) (h : jsTrim s = "")
    (hn : ∃ c ∈ needle.data, isWs c = false) : jsIncludes s needle = false :=
  containsSub_false_of_ws needle.data s.data hn (all_ws_of_jsTrim_eq_empty s h)

theorem hasErrMarker_false_of_trim_empty (s : String) (h : jsTrim s = "") :
    hasErrMarker s = false := by
  have h1 := jsIncludes_false_of_trim_empty s "failure" h (by decide)
  have h2 := jsIncludes_false_of_trim_empty s "error" h (by decide)
  have h3 := jsIncludes_false_of_trim_empty s "invalid" h (by decide)
  simp [hasErrMarker, h1, h2, h3]

/-! ## Provisioning lemmas -/

theorem containsSub_middle_assoc (p n q : List Char) : containsSub n (p ++ (n ++ q)) = true := by
  rw [← List.append_assoc]
  exact containsSub_middle p n q

theorem jsIncludes_append_right (tip suf : String) : jsIncludes (tip ++ suf) tip = true := by
  unfold jsIncludes
  rw [String.data_append]
  exact containsSub_append_self _ _

theorem checkIPAssignment_addNATRule (s : GatewayState) (d : DeviceConfig) (c : ControlConfig)
    (tip iface : String) :
    checkIPAssignment (addNATRule s d c) tip iface = checkIPAssignment s tip iface := rfl

theorem checkIPAssignment_addIPAddress (s : GatewayState) (tip iface : String) :
    checkIPAssignment (addIPAddress s tip iface) tip iface = true := by
  simp [checkIPAssignment, printAddressLines, addIPAddress, List.filter_append,
    jsIncludes_append_right]

theorem concatStrings_append (a b : List String) :
    concatStrings (a ++ b) = concatStrings a ++ concatStrings b := by
  induction a with
  | nil => simp [concatStrings]
  | cons s t ih => simp [concatStrings, ih, String.append_assoc]

theorem jsIncludes_split (p n q : String) : jsIncludes (p ++ n ++ q) n = true := by
  unfold jsIncludes
  simp only [String.data_append]
  exact containsSub_middle _ _ _

theorem renderNatRule_port_split (pre : String) (r : NatRule) :
    pre ++ renderNatRule r = (pre ++ (r.comment ++ " dstnat " ++ r.dst_address ++ " ")) ++
      toString r.dst_port ++ (" tcp " ++ r.to_addresses ++ " " ++ toString r.to_ports ++ "\n") := by
  apply String.ext
  simp [renderNatRule, String.data_append, List.append_assoc]

theorem renderNatRule_toaddr_split (pre : String) (r : NatRule) :
    pre ++ renderNatRule r = (pre ++ (r.comment ++ " dstnat " ++ r.dst_address ++ " " ++
      toString r.dst_port ++ " tcp ")) ++ r.to_addresses ++
      (" " ++ toString r.to_ports ++ "\n") := by
  apply String.ext
  simp [renderNatRule, String.data_append, List.append_assoc]

theorem jsIncludes_renderNatRule_port (pre : String) (r : NatRule) :
    jsIncludes (pre ++ renderNatRule r) (toString r.dst_port) = true := by
  rw [renderNatRule_port_split]
  exact jsIncludes_split _ _ _

theorem jsIncludes_renderNatRule_toaddr (pre : String) (r : NatRule) :
    jsIncludes (pre ++ renderNatRule r) r.to_addresses = true := by
  rw [renderNatRule_toaddr_split]
  exact jsIncludes_split _ _ _

theorem checkNATRule_addNATRule (s : GatewayState) (d : DeviceConfig) (c : ControlConfig) :
    checkNATRule (addNATRule s d c) d = true := by
  unfold checkNATRule
  have hout : natPrintOutput (addNATRule s d c) d.mikrotik_ssh_port =
      concatStrings ((s.natRules.filter
        (fun r => r.dst_port == d.mikrotik_ssh_port)).map renderNatRule) ++
      renderNatRule ⟨d.name, c.control_ip, d.mikrotik_ssh_port, d.mikrotik_lhg60g_ip, 22⟩ := by
    unfold natPrintOutput addNATRule
    simp [List.filter_append, List.map_append, concatStrings_append, concatStrings]
  rw [hout]
  have h1 : jsIncludes (concatStrings ((s.natRules.filter
        (fun r => r.dst_port == d.mikrotik_ssh_port)).map renderNatRule) ++
      renderNatRule ⟨d.name, c.control_ip, d.mikrotik_ssh_port, d.mikrotik_lhg60g_ip, 22⟩)
      (toString d.mikrotik_ssh_port) = true :=
    jsIncludes_renderNatRule_port _ _
  have h2 : jsIncludes (concatStrings ((s.natRules.filter
        (fun r => r.dst_port == d.mikrotik_ssh_port)).map renderNatRule) ++
      renderNatRule ⟨d.name, c.control_ip, d.mikrotik_ssh_port, d.mikrotik_lhg60g_ip, 22⟩)
      d.mikrotik_lhg60g_ip = true :=
    jsIncludes_renderNatRule_toaddr _ _
  rw [h1, h2]
  rfl

theorem provisionDevice_ok_post (c : ControlConfig) (s : GatewayState) (d : DeviceConfig) :
    checkIPAssignment (provisionDevice okEnv c s d).1 d.mikrotik_tunnel_ip
      c.lhg60g_ethernet_interface = true ∧
    checkNATRule (provisionDevice okEnv c s d).1 d = true := by
  unfold provisionDevice provisionNATPhase okEnv
  by_cases hip : checkIPAssignment s d.mikrotik_tunnel_ip c.lhg60g_ethernet_interface
  · by_cases hnat : checkNATRule s d
    · simp [hip, hnat]
    · simp [hip, hnat, checkIPAssignment_addNATRule, checkNATRule_addNATRule]
  · by_cases hnat : checkNATRule (addIPAddress s d.mikrotik_tunnel_ip
        c.lhg60g_ethernet_interface) d
    · simp [hip, hnat, checkIPAssignment_addIPAddress]
    · simp [hip, hnat, checkIPAssignment_addNATRule, checkNATRule_addNATRule,
        checkIPAssignment_addIPAddress]

/-! ## C1 -/

/-- C1: with a reachable gateway and succeeding commands, a second
`provisionDevice` run finds the address assignment and NAT rule left by the
first run, skips both add commands, leaves the gateway state unchanged, and
reports success with no error. -/
theorem provision_idempotent (c : ControlConfig) (s : GatewayState) (d : DeviceConfig) :
    (provisionDevice okEnv c (provisionDevice okEnv c s d).1 d).1 =
      (provisionDevice okEnv c s d).1 ∧
    (provisionDevice okEnv c (provisionDevice okEnv c s d).1 d).2.success = true ∧
    (provisionDevice okEnv c (provisionDevice okEnv c s d).1 d).2.error = none ∧
    (provisionDevice okEnv c (provisionDevice okEnv c s d).1 d).2.warnings = [] := by
  obtain ⟨hip, hnat⟩ := provisionDevice_ok_post c s d
  set s1 := (provisionDevice okEnv c s d).1 with hs1
  refine ⟨?_, ?_, ?_, ?_⟩ <;> simp [provisionDevice, okEnv, hip, hnat, provisionNATPhase]

/-! ## C4 -/

/-- C4 counterexample: with a reachable gateway, a failure while adding the
address assignment makes `provisionDevice` return an unsuccessful outcome
with no warning, and the NAT steps never run (the step log ends at the
error) — refuting "surfaces as a warning, remaining steps run, outcome stays
successful". -/
theorem provision_addIP_failure_concrete :
    (provisionDevice ⟨false, "", true, "timeout", false, ""⟩ ⟨"1.2.3.4", "ether2"⟩
      ⟨[], []⟩ ⟨"alpha", "10.0.0.2", 2201, "10.0.0.50"⟩).2.success = false ∧
    (provisionDevice ⟨false, "", true, "timeout", false, ""⟩ ⟨"1.2.3.4", "ether2"⟩
      ⟨[], []⟩ ⟨"alpha", "10.0.0.2", 2201, "10.0.0.50"⟩).2.warnings = [] ∧
    (provisionDevice ⟨false, "", true, "timeout", false, ""⟩ ⟨"1.2.3.4", "ether2"⟩
      ⟨[], []⟩ ⟨"alpha", "10.0.0.2", 2201, "10.0.0.50"⟩).2.steps =
      ["Retrieved control router configuration", "Connected to control router",
       "Error: Failed to add IP address: timeout"] := by
  refine ⟨?_, ?_, ?_⟩ <;> decide

/-- C4 (amended): only a connect failure or a thrown add-command failure can
abort, and an address-add failure does abort: it stops the sequence before
the NAT steps, leaves the gateway state unchanged, records the error, and
returns an unsuccessful outcome with no warning. -/
theorem provision_addIP_failure_aborts (env : ExecEnv) (c : ControlConfig)
    (s : GatewayState) (d : DeviceConfig)
    (hc : env.connectFails = false)
    (hip : checkIPAssignment s d.mikrotik_tunnel_ip c.lhg60g_ethernet_interface = false)
    (hf : env.addIPFails = true) :
    (provisionDevice env c s d).1 = s ∧
    (provisionDevice env c s d).2.success = false ∧
    (provisionDevice env c s d).2.warnings = [] ∧
    (provisionDevice env c s d).2.error =
      some ("Failed to add IP address: " ++ env.addIPErr) ∧
    (provisionDevice env c s d).2.steps =
      ["Retrieved control router configuration", "Connected to control router",
       "Error: Failed to add IP address: " ++ env.addIPErr] := by
  unfold provisionDevice
  simp [hc, hip, hf]

/-- C4 witness: the amended theorem applied at a concrete failing add. -/
theorem provision_addIP_failure_aborts_witness :
    (provisionDevice ⟨false, "", true, "boom", false, ""⟩ ⟨"9.9.9.9", "ether1"⟩
      ⟨[("172.16.0.1/24", "ether1")], []⟩ ⟨"beta", "10.1.2.3", 2299, "10.1.2.9"⟩).2.success =
      false := by
  have h := provision_addIP_failure_aborts ⟨false, "", true, "boom", false, ""⟩
    ⟨"9.9.9.9", "ether1"⟩ ⟨[("172.16.0.1/24", "ether1")], []⟩
    ⟨"beta", "10.1.2.3", 2299, "10.1.2.9"⟩ (by decide) (by decide) (by decide)
  exact h.2.1

/-! ## Subnet-usage lemmas -/

theorem jsSplitChar_ne_nil (sep : Char) (l : List Char) : jsSplitChar sep l ≠ [] := by
  induction l with
  | nil => simp [jsSplitChar]
  | cons c rest ih =>
    unfold jsSplitChar
    by_cases h : c = sep
    · simp [h]
    · simp only [if_neg h]
      cases hr : jsSplitChar sep rest with
      | nil => simp
      | cons a t => simp

theorem jsSplitChar_no_sep (sep : Char) (l : List Char) :
    ∀ p ∈ jsSplitChar sep l, sep ∉ p := by
  induction l with
  | nil =>
    intro p hp
    simp only [jsSplitChar, List.mem_singleton] at hp
    subst hp
    simp
  | cons c rest ih =>
    intro p hp
    unfold jsSplitChar at hp
    by_cases h : c = sep
    · rw [if_pos h] at hp
      rcases List.mem_cons.mp hp with h1 | h1
      · subst h1; simp
      · exact ih p h1
    · rw [if_neg h] at hp
      cases hr : jsSplitChar sep rest with
      | nil => exact absurd hr (jsSplitChar_ne_nil sep rest)
      | cons a t =>
        rw [hr] at hp
        simp only [List.mem_cons] at hp
        rcases hp with h1 | h1
        · subst h1
          intro hmem
          rcases List.mem_cons.mp hmem with h2 | h2
          · exact h h2.symm
          · exact ih a (by rw [hr]; exact List.mem_cons_self a t) h2
        · exact ih p (by rw [hr]; exact List.mem_cons.mpr (Or.inr h1))

theorem jsSplit_no_sep (s : String) (sep : Char) : ∀ p ∈ jsSplit s sep, sep ∉ p.data := by
  intro p hp
  unfold jsSplit at hp
  obtain ⟨l, hl, rfl⟩ := List.mem_map.mp hp
  simpa using jsSplitChar_no_sep sep s.data l hl

theorem append_sep_inj (sep : Char) :
    ∀ (a a' b b' : List Char), sep ∉ a → sep ∉ a' →
      a ++ sep :: b = a' ++ sep :: b' → a = a' ∧ b = b' := by
  intro a
  induction a with
  | nil =>
    intro a' b b' _ ha' h
    cases a' with
    | nil => simpa using h
    | cons c cs =>
      simp only [List.nil_append, List.cons_append, List.cons.injEq] at h
      exact absurd (h.1 ▸ List.mem_cons_self c cs) ha'
  | cons c cs ih =>
    intro a' b b' ha ha' h
    cases a' with
    | nil =>
      simp only [List.nil_append, List.cons_append, List.cons.injEq] at h
      exact absurd (h.1 ▸ List.mem_cons_self c cs) ha
    | cons c' cs' =>
      simp only [List.cons_append, List.cons.injEq] at h
      obtain ⟨hc, hrest⟩ := h
      have hcs : sep ∉ cs := fun hm => ha (List.mem_cons.mpr (Or.inr hm))
      have hcs' : sep ∉ cs' := fun hm => ha' (List.mem_cons.mpr (Or.inr hm))
      obtain ⟨h1, h2⟩ := ih cs' b b' hcs hcs' hrest
      exact ⟨by rw [hc, h1], h2⟩

theorem subnetKey_inj (p0 p1 p2 q0 q1 q2 : String)
    (hp0 : '.' ∉ p0.data) (hp1 : '.' ∉ p1.data)
    (hq0 : '.' ∉ q0.data) (hq1 : '.' ∉ q1.data)
    (hp2 : '.' ∉ p2.data) (hq2 : '.' ∉ q2.data) :
    p0 ++ "." ++ p1 ++ "." ++ p2 ++ ".0" = q0 ++ "." ++ q1 ++ "." ++ q2 ++ ".0" ↔
      p0 = q0 ∧ p1 = q1 ∧ p2 = q2 := by
  constructor
  · intro h
    have hd := congrArg String.data h
    have edot : ("." : String).data = ['.'] := rfl
    have edot0 : (".0" : String).data = ['.', '0'] := rfl
    simp only [String.data_append, edot, edot0, List.append_assoc,
      List.singleton_append, List.cons_append, List.nil_append] at hd
    obtain ⟨e0, hd1⟩ := append_sep_inj '.' _ _ _ _ hp0 hq0 hd
    obtain ⟨e1, hd2⟩ := append_sep_inj '.' _ _ _ _ hp1 hq1 hd1
    obtain ⟨e2, -⟩ := append_sep_inj '.' _ _ _ _ hp2 hq2 hd2
    exact ⟨String.ext e0, String.ext e1, String.ext e2⟩
  · rintro ⟨rfl, rfl, rfl⟩
    rfl

theorem list_len4 {α : Type} (l : List α) (h : l.length = 4) :
    ∃ a b c d, l = [a, b, c, d] := by
  rcases l with _ | ⟨a, l⟩; · simp at h
  rcases l with _ | ⟨b, l⟩; · simp at h
  rcases l with _ | ⟨c, l⟩; · simp at h
  rcases l with _ | ⟨d, l⟩; · simp at h
  rcases l with _ | ⟨e, l⟩
  · exact ⟨a, b, c, d, rfl⟩
  · simp only [List.length_cons] at h
    omega

theorem checkSubnetUsage_iff (tip : String) (R : List RemainingDevice)
    (h4 : (jsSplit tip '.').length = 4) :
    checkSubnetUsage tip R = true ↔
      ∃ r ∈ R, r.device_type = "mikrotik_lhg60g" ∧ r.mikrotik_lhg60g_ip ≠ "" ∧
        sharesSubnetPrefix tip r.mikrotik_lhg60g_ip := by
  obtain ⟨t0, t1, t2, t3, htip⟩ := list_len4 _ h4
  have ht0 : '.' ∉ t0.data := jsSplit_no_sep tip '.' t0 (by rw [htip]; simp)
  have ht1 : '.' ∉ t1.data := jsSplit_no_sep tip '.' t1 (by rw [htip]; simp)
  have ht2 : '.' ∉ t2.data := jsSplit_no_sep tip '.' t2 (by rw [htip]; simp)
  simp only [checkSubnetUsage, htip, List.length_cons, List.length_nil]
  rw [if_neg (by omega)]
  rw [List.any_eq_true]
  constructor
  · rintro ⟨r, hr, hb⟩
    simp only [List.getD_cons_zero, List.getD_cons_succ, Bool.and_eq_true,
      beq_iff_eq, bne_iff_ne] at hb
    obtain ⟨⟨htype, hne⟩, hlen, hkey⟩ := hb
    obtain ⟨d0, d1, d2, d3, hdev⟩ := list_len4 _ hlen
    have hd0 : '.' ∉ d0.data := jsSplit_no_sep _ '.' d0 (by rw [hdev]; simp)
    have hd1 : '.' ∉ d1.data := jsSplit_no_sep _ '.' d1 (by rw [hdev]; simp)
    have hd2 : '.' ∉ d2.data := jsSplit_no_sep _ '.' d2 (by rw [hdev]; simp)
    rw [hdev] at hkey
    simp only [List.getD_cons_zero, List.getD_cons_succ] at hkey
    obtain ⟨e0, e1, e2⟩ :=
      (subnetKey_inj d0 d1 d2 t0 t1 t2 hd0 hd1 ht0 ht1 hd2 ht2).mp hkey
    refine ⟨r, hr, htype, hne, h4, hlen, ?_⟩
    unfold firstThreeOctets
    rw [htip, hdev]
    simp [e0, e1, e2]
  · rintro ⟨r, hr, htype, hne, -, hlen, htake⟩
    obtain ⟨d0, d1, d2, d3, hdev⟩ := list_len4 _ hlen
    have hd0 : '.' ∉ d0.data := jsSplit_no_sep _ '.' d0 (by rw [hdev]; simp)
    have hd1 : '.' ∉ d1.data := jsSplit_no_sep _ '.' d1 (by rw [hdev]; simp)
    have hd2 : '.' ∉ d2.data := jsSplit_no_sep _ '.' d2 (by rw [hdev]; simp)
    unfold firstThreeOctets at htake
    rw [htip, hdev] at htake
    simp only [List.take, List.cons.injEq, and_true] at htake
    obtain ⟨e0, e1, e2⟩ := htake
    refine ⟨r, hr, ?_⟩
    simp only [List.getD_cons_zero, List.getD_cons_succ, Bool.and_eq_true,
      beq_iff_eq, bne_iff_ne]
    refine ⟨⟨htype, hne⟩, hlen, ?_⟩
    rw [hdev]
    simp only [List.getD_cons_zero, List.getD_cons_succ]
    exact (subnetKey_inj d0 d1 d2 t0 t1 t2 hd0 hd1 ht0 ht1 hd2 ht2).mpr ⟨e0.symm, e1.symm, e2.symm⟩

/-! ## C2 -/

/-- C2: `deprovisionDevice` skips removing the gateway address assignment
exactly when some remaining device of the gateway-reachable family has an
inner device IP sharing the first three octets of the deleted device's
tunnel IP; otherwise it removes the `tunnelIP/24` assignment from the
gateway interface. -/
theorem deprovision_subnet_safe (c : ControlConfig) (s : GatewayState) (d : DeviceConfig)
    (R : List RemainingDevice)
    (h4 : (jsSplit d.mikrotik_tunnel_ip '.').length = 4) :
    ((∃ r ∈ R, r.device_type = "mikrotik_lhg60g" ∧ r.mikrotik_lhg60g_ip ≠ "" ∧
        sharesSubnetPrefix d.mikrotik_tunnel_ip r.mikrotik_lhg60g_ip) →
      (deprovisionDevice c s d R).1.addresses = s.addresses) ∧
    ((¬∃ r ∈ R, r.device_type = "mikrotik_lhg60g" ∧ r.mikrotik_lhg60g_ip ≠ "" ∧
        sharesSubnetPrefix d.mikrotik_tunnel_ip r.mikrotik_lhg60g_ip) →
      (deprovisionDevice c s d R).1.addresses =
        s.addresses.filter fun a =>
          !(a.1 == d.mikrotik_tunnel_ip ++ "/24" && a.2 == c.lhg60g_ethernet_interface)) := by
  constructor
  · intro hex
    have hcs : checkSubnetUsage d.mikrotik_tunnel_ip R = true :=
      (checkSubnetUsage_iff _ _ h4).mpr hex
    simp [deprovisionDevice, hcs, removeNATRule]
  · intro hnex
    have hcs : checkSubnetUsage d.mikrotik_tunnel_ip R = false := by
      rcases Bool.eq_false_or_eq_true (checkSubnetUsage d.mikrotik_tunnel_ip R) with hb | hb
      · exact absurd ((checkSubnetUsage_iff _ _ h4).mp hb) hnex
      · exact hb
    simp [deprovisionDevice, hcs, removeIPAddress, removeNATRule]

/-- C2 witness: a remaining gateway-family device with inner IP `10.0.0.7`
shares the deleted device's tunnel subnet `10.0.0`, so the assignment
`10.0.0.5/24` is preserved. -/
theorem deprovision_subnet_safe_witness :
    (deprovisionDevice ⟨"1.2.3.4", "ether2"⟩ ⟨[("10.0.0.5/24", "ether2")], []⟩
      ⟨"alpha", "10.0.0.5", 2201, "10.0.0.6"⟩
      [⟨"beta", "mikrotik_lhg60g", "10.0.0.7", "10.0.0.8"⟩]).1.addresses =
      [("10.0.0.5/24", "ether2")] := by
  have h := deprovision_subnet_safe ⟨"1.2.3.4", "ether2"⟩ ⟨[("10.0.0.5/24", "ether2")], []⟩
    ⟨"alpha", "10.0.0.5", 2201, "10.0.0.6"⟩
    [⟨"beta", "mikrotik_lhg60g", "10.0.0.7", "10.0.0.8"⟩] (by decide)
  exact h.1 ⟨⟨"beta", "mikrotik_lhg60g", "10.0.0.7", "10.0.0.8"⟩, by simp, by decide,
    by decide, by decide⟩

/-! ## C3 -/

/-- C3 counterexample: the remaining gateway-family device `beta` has tunnel
IP `10.0.0.3`, sharing the deleted device's tunnel-IP third-octet prefix
`10.0.0`, yet `deprovisionDevice` removes the `10.0.0.2/24` assignment,
because `checkSubnetUsage` compares against the remaining devices' inner
`mikrotik_lhg60g_ip` (here `10.9.9.1`), not their tunnel IPs. -/
theorem deprovision_removes_despite_shared_tunnel_prefix :
    (⟨"beta", "mikrotik_lhg60g", "10.9.9.1", "10.0.0.3"⟩ :
        RemainingDevice).device_type = "mikrotik_lhg60g" ∧
    sharesSubnetPrefix "10.0.0.2"
      (⟨"beta", "mikrotik_lhg60g", "10.9.9.1", "10.0.0.3"⟩ :
        RemainingDevice).mikrotik_tunnel_ip ∧
    (deprovisionDevice ⟨"1.2.3.4", "ether2"⟩ ⟨[("10.0.0.2/24", "ether2")], []⟩
      ⟨"alpha", "10.0.0.2", 2201, "10.0.0.50"⟩
      [⟨"beta", "mikrotik_lhg60g", "10.9.9.1", "10.0.0.3"⟩]).1.addresses = [] := by
  refine ⟨rfl, by decide, by decide⟩

/-- C3 (amended): the gateway address assignment is preserved whenever at
least one remaining gateway-reachable device's INNER device IP (the field
`checkSubnetUsage` actually reads) shares the deleted device's tunnel-IP
third-octet prefix; descriptors sharing only their tunnel IPs do not protect
the assignment. -/
theorem deprovision_preserves_shared_inner_subnet (c : ControlConfig) (s : GatewayState)
    (d : DeviceConfig) (R : List RemainingDevice)
    (h : ∃ r ∈ R, r.device_type = "mikrotik_lhg60g" ∧ r.mikrotik_lhg60g_ip ≠ "" ∧
        sharesSubnetPrefix d.mikrotik_tunnel_ip r.mikrotik_lhg60g_ip) :
    (deprovisionDevice c s d R).1.addresses = s.addresses := by
  obtain ⟨r, hr, htype, hne, hshare⟩ := h
  have hcs : checkSubnetUsage d.mikrotik_tunnel_ip R = true :=
    (checkSubnetUsage_iff _ _ hshare.1).mpr ⟨r, hr, htype, hne, hshare⟩
  simp [deprovisionDevice, hcs, removeNATRule]

/-- C3 witness: the amended theorem at a concrete shared inner subnet. -/
theorem deprovision_preserves_shared_inner_subnet_witness :
    (deprovisionDevice ⟨"1.2.3.4", "ether5"⟩ ⟨[("192.168.7.2/24", "ether5")], []⟩
      ⟨"gamma", "192.168.7.2", 2202, "192.168.7.9"⟩
      [⟨"delta", "mikrotik_lhg60g", "192.168.7.10", "10.5.5.5"⟩]).1.addresses =
      [("192.168.7.2/24", "ether5")] := by
  have h := deprovision_preserves_shared_inner_subnet ⟨"1.2.3.4", "ether5"⟩
    ⟨[("192.168.7.2/24", "ether5")], []⟩ ⟨"gamma", "192.168.7.2", 2202, "192.168.7.9"⟩
    [⟨"delta", "mikrotik_lhg60g", "192.168.7.10", "10.5.5.5"⟩]
    ⟨⟨"delta", "mikrotik_lhg60g", "192.168.7.10", "10.5.5.5"⟩, by simp, by decide,
      by decide, by decide⟩
  simpa using h

/-! ## Character and scanner lemmas -/

theorem toNat_ofNat_small (n : Nat) (h : n < 55296) : (Char.ofNat n).toNat = n := by
  unfold Char.ofNat
  rw [dif_pos (Or.inl h)]
  simp [Char.ofNatAux, Char.toNat, UInt32.ofNat', UInt32.toNat]

theorem isWs_false_of_toNat (c : Char)
    (h1 : c.toNat ≠ 32) (h2 : c.toNat ≠ 9) (h3 : c.toNat ≠ 13) (h4 : c.toNat ≠ 10) :
    isWs c = false := by
  have e1 : c ≠ ' ' := fun he => h1 ((congrArg Char.toNat he).trans (by decide))
  have e2 : c ≠ '\t' := fun he => h2 ((congrArg Char.toNat he).trans (by decide))
  have e3 : c ≠ '\r' := fun he => h3 ((congrArg Char.toNat he).trans (by decide))
  have e4 : c ≠ '\n' := fun he => h4 ((congrArg Char.toNat he).trans (by decide))
  simp [isWs, Char.isWhitespace, e1, e2, e3, e4]

theorem isDigitChar_iff (c : Char) : isDigitChar c = true ↔ 48 ≤ c.toNat ∧ c.toNat ≤ 57 := by
  simp [isDigitChar]

theorem digitChar_not_ws (c : Char) (h : isDigitChar c = true) : isWs c = false := by
  rw [isDigitChar_iff] at h
  exact isWs_false_of_toNat c (by omega) (by omega) (by omega) (by omega)

theorem ws_cases (c : Char) (h : isWs c = true) :
    c = ' ' ∨ c = '\t' ∨ c = '\r' ∨ c = '\n' := by
  simpa [isWs, Char.isWhitespace, or_assoc] using h

theorem ws_not_digit (c : Char) (h : isWs c = true) : isDigitChar c = false := by
  rcases ws_cases c h with rfl | rfl | rfl | rfl <;> decide

theorem ws_ne_dot (c : Char) (h : isWs c = true) : c ≠ '.' := by
  rcases ws_cases c h with rfl | rfl | rfl | rfl <;> decide

theorem toNat_of_toLower (c x : Char) (h : c.toLower = x) :
    c.toNat = x.toNat ∨ c.toNat + 32 = x.toNat := by
  simp only [Char.toLower] at h
  by_cases hr : c.toNat ≥ 65 ∧ c.toNat ≤ 90
  · rw [if_pos hr] at h
    right
    have h2 := congrArg Char.toNat h
    rw [toNat_ofNat_small (c.toNat + 32) (by omega)] at h2
    exact h2
  · rw [if_neg hr] at h
    left
    exact congrArg Char.toNat h

theorem unit_head_facts (c : Char) (h : c.toLower = 'm' ∨ c.toLower = 'g') :
    isDigitChar c = false ∧ isWs c = false ∧ c ≠ '.' := by
  have hm : ('m' : Char).toNat = 109 := by decide
  have hg : ('g' : Char).toNat = 103 := by decide
  have hn : c.toNat = 109 ∨ c.toNat = 77 ∨ c.toNat = 103 ∨ c.toNat = 71 := by
    rcases h with h | h
    · rcases toNat_of_toLower c 'm' h with h2 | h2
      · exact Or.inl (by omega)
      · exact Or.inr (Or.inl (by omega))
    · rcases toNat_of_toLower c 'g' h with h2 | h2
      · exact Or.inr (Or.inr (Or.inl (by omega)))
      · exact Or.inr (Or.inr (Or.inr (by omega)))
  refine ⟨?_, ?_, ?_⟩
  · rcases Bool.eq_false_or_eq_true (isDigitChar c) with hb | hb
    · rw [isDigitChar_iff] at hb
      rcases hn with h2 | h2 | h2 | h2 <;> omega
    · exact hb
  · apply isWs_false_of_toNat <;> (rcases hn with h2 | h2 | h2 | h2 <;> omega)
  · intro he
    have h46 : c.toNat = 46 := (congrArg Char.toNat he).trans (by decide)
    rcases hn with h2 | h2 | h2 | h2 <;> omega

theorem dropWhile_all_append (p : Char → Bool) (a b : List Char)
    (ha : ∀ c ∈ a, p c = true) : (a ++ b).dropWhile p = b.dropWhile p := by
  induction a with
  | nil => rfl
  | cons c t ih =>
    have hc : p c = true := ha c (by simp)
    simp only [List.cons_append, List.dropWhile_cons, hc, if_true]
    exact ih (fun x hx => ha x (by simp [hx]))

theorem dropWhile_all_cons (p : Char → Bool) (a : List Char) (c : Char) (t : List Char)
    (ha : ∀ x ∈ a, p x = true) (hc : p c = false) :
    (a ++ c :: t).dropWhile p = c :: t := by
  rw [dropWhile_all_append p a (c :: t) ha, List.dropWhile_cons, hc]
  simp

theorem takeWhile_all_cons (p : Char → Bool) (a : List Char) (c : Char) (t : List Char)
    (ha : ∀ x ∈ a, p x = true) (hc : p c = false) :
    (a ++ c :: t).takeWhile p = a := by
  induction a with
  | nil => simp [List.takeWhile_cons, hc]
  | cons d a' ih =>
    have hd : p d = true := ha d (by simp)
    simp only [List.cons_append, List.takeWhile_cons, hd, if_true]
    rw [ih (fun x hx => ha x (by simp [hx]))]

theorem matchLit_of_map_toLower (u rest : List Char) :
    matchLit (u.map Char.toLower) (u ++ rest) = some rest := by
  induction u with
  | nil => rfl
  | cons c t ih => simpa [matchLit] using ih

theorem matchLit_head_ne (p : Char) (ps : List Char) (c : Char) (l : List Char)
    (h : c.toLower ≠ p) : matchLit (p :: ps) (c :: l) = none := by
  simp [matchLit, h]

theorem findRate_append_no_r (pre core : List Char)
    (hpre : ∀ c ∈ pre, c.toLower ≠ 'r') :
    findRate (pre ++ core) = findRate core := by
  induction pre with
  | nil => rfl
  | cons c t ih =>
    have hc := hpre c (by simp)
    have htry : tryRateAt (c :: (t ++ core)) = none := by
      unfold tryRateAt
      rw [matchLit_head_ne 'r' ['a', 't', 'e', ':'] c (t ++ core) hc]
      rfl
    show findRate (c :: (t ++ core)) = findRate core
    simp only [findRate, htry]
    exact ih (fun x hx => hpre x (by simp [hx]))

theorem unitOf_some (uh : Char) (ut rest : List Char)
    (hu : (uh :: ut).map Char.toLower = ['m', 'b', 'p', 's'] ∨
      (uh :: ut).map Char.toLower = ['g', 'b', 'p', 's']) :
    unitOf (uh :: (ut ++ rest)) =
      some (if (uh :: ut).map Char.toLower = ['g', 'b', 'p', 's'] then 'g' else 'm') := by
  rw [show uh :: (ut ++ rest) = (uh :: ut) ++ rest from rfl]
  rcases hu with h | h
  · have hm := matchLit_of_map_toLower (uh :: ut) rest
    rw [h] at hm
    have hne : (uh :: ut).map Char.toLower ≠ ['g', 'b', 'p', 's'] := by
      rw [h]; decide
    unfold unitOf
    rw [hm, if_neg hne]
  · have hg := matchLit_of_map_toLower (uh :: ut) rest
    rw [h] at hg
    have huh : uh.toLower = 'g' := by
      have := congrArg (fun l => l.headD 'x') h
      simpa using this
    have hmb : matchLit ['m', 'b', 'p', 's'] ((uh :: ut) ++ rest) = none := by
      rw [show (uh :: ut) ++ rest = uh :: (ut ++ rest) from rfl]
      exact matchLit_head_ne 'm' ['b', 'p', 's'] uh (ut ++ rest) (by rw [huh]; decide)
    unfold unitOf
    rw [hmb, hg, if_pos h]

theorem unit_phase (sp2 : List Char) (uh : Char) (ut rest : List Char)
    (hsp2 : ∀ c ∈ sp2, isWs c = true) (huw : isWs uh = false)
    (hu : (uh :: ut).map Char.toLower = ['m', 'b', 'p', 's'] ∨
      (uh :: ut).map Char.toLower = ['g', 'b', 'p', 's']) :
    unitOf ((sp2 ++ (uh :: (ut ++ rest))).dropWhile isWs) =
      some (if (uh :: ut).map Char.toLower = ['g', 'b', 'p', 's'] then 'g' else 'm') := by
  rw [dropWhile_all_cons isWs sp2 uh (ut ++ rest) hsp2 huw]
  exact unitOf_some uh ut rest hu

theorem tryRateAt_structured (sp1 : List Char) (d0 : Char) (dt fs sp2 : List Char)
    (uh : Char) (ut rest : List Char)
    (hsp1 : ∀ c ∈ sp1, isWs c = true)
    (hd0 : isDigitChar d0 = true) (hdt : ∀ c ∈ dt, isDigitChar c = true)
    (hfs : fs = [] ∨ (fs ≠ [] ∧ ∀ c ∈ fs, isDigitChar c = true))
    (hsp2 : ∀ c ∈ sp2, isWs c = true)
    (hu : (uh :: ut).map Char.toLower = ['m', 'b', 'p', 's'] ∨
      (uh :: ut).map Char.toLower = ['g', 'b', 'p', 's']) :
    tryRateAt ('r' :: (['a', 't', 'e', ':'] ++ (sp1 ++ ((d0 :: dt) ++
        ((if fs = [] then [] else '.' :: fs) ++ (sp2 ++ (uh :: (ut ++ rest)))))))) =
      some (d0 :: dt, fs,
        if (uh :: ut).map Char.toLower = ['g', 'b', 'p', 's'] then 'g' else 'm') := by
  have huh : uh.toLower = 'm' ∨ uh.toLower = 'g' := by
    rcases hu with h | h
    · simp only [List.map_cons, List.cons.injEq] at h
      exact Or.inl h.1
    · simp only [List.map_cons, List.cons.injEq] at h
      exact Or.inr h.1
  obtain ⟨hud, huw, hudot⟩ := unit_head_facts uh huh
  have hall : ∀ x ∈ (d0 :: dt), isDigitChar x = true := by
    intro x hx
    rcases List.mem_cons.mp hx with rfl | hx2
    · exact hd0
    · exact hdt x hx2
  have hZ : ∃ zc zt, sp2 ++ (uh :: (ut ++ rest)) = zc :: zt ∧
      isDigitChar zc = false ∧ zc ≠ '.' := by
    cases sp2 with
    | nil => exact ⟨uh, ut ++ rest, rfl, hud, hudot⟩
    | cons s0 st =>
      have hs0 := hsp2 s0 (by simp)
      exact ⟨s0, st ++ (uh :: (ut ++ rest)), rfl, ws_not_digit s0 hs0, ws_ne_dot s0 hs0⟩
  obtain ⟨zc, zt, hzeq, hzd, hzdot⟩ := hZ
  have hunit : unitOf ((zc :: zt).dropWhile isWs) =
      some (if (uh :: ut).map Char.toLower = ['g', 'b', 'p', 's'] then 'g' else 'm') := by
    rw [← hzeq]
    exact unit_phase sp2 uh ut rest hsp2 huw hu
  unfold tryRateAt
  have hlit : (['r', 'a', 't', 'e', ':'] : List Char).map Char.toLower =
      ['r', 'a', 't', 'e', ':'] := by decide
  have h1 := matchLit_of_map_toLower ['r', 'a', 't', 'e', ':']
    (sp1 ++ ((d0 :: dt) ++
      ((if fs = [] then [] else '.' :: fs) ++ (sp2 ++ (uh :: (ut ++ rest))))))
  rw [hlit] at h1
  rw [show 'r' :: (['a', 't', 'e', ':'] ++ (sp1 ++ ((d0 :: dt) ++
      ((if fs = [] then [] else '.' :: fs) ++ (sp2 ++ (uh :: (ut ++ rest))))))) =
      ['r', 'a', 't', 'e', ':'] ++ (sp1 ++ ((d0 :: dt) ++
      ((if fs = [] then [] else '.' :: fs) ++ (sp2 ++ (uh :: (ut ++ rest)))))) from rfl]
  rw [h1, Option.some_bind]
  simp only [rateAfterLit]
  rcases hfs with hfse | ⟨hfne, hfsd⟩
  · subst hfse
    rw [show (if ([] : List Char) = [] then ([] : List Char) else '.' :: []) = [] from rfl]
    simp only [List.nil_append]
    rw [hzeq]
    rw [show (d0 :: dt) ++ (zc :: zt) = d0 :: (dt ++ (zc :: zt)) from rfl]
    rw [dropWhile_all_cons isWs sp1 d0 (dt ++ (zc :: zt)) hsp1 (digitChar_not_ws d0 hd0)]
    rw [show d0 :: (dt ++ (zc :: zt)) = (d0 :: dt) ++ (zc :: zt) from rfl]
    rw [takeWhile_all_cons isDigitChar (d0 :: dt) zc zt hall hzd]
    rw [if_neg (by simp : ¬((d0 :: dt).isEmpty = true))]
    rw [List.drop_left]
    rw [show fracGroup (zc :: zt) = ([], zc :: zt) from by simp [fracGroup, hzdot]]
    rw [show ((([] : List Char), zc :: zt).2) = zc :: zt from rfl]
    rw [hunit]
    rfl
  · obtain ⟨f0, ft, rfl⟩ : ∃ f0 ft, fs = f0 :: ft := by
      cases fs with
      | nil => exact absurd rfl hfne
      | cons a b => exact ⟨a, b, rfl⟩
    rw [show (if (f0 :: ft : List Char) = [] then ([] : List Char) else '.' :: (f0 :: ft)) =
        '.' :: (f0 :: ft) from rfl]
    rw [hzeq]
    rw [show (d0 :: dt) ++ (('.' :: (f0 :: ft)) ++ (zc :: zt)) =
        d0 :: (dt ++ (('.' :: (f0 :: ft)) ++ (zc :: zt))) from rfl]
    rw [dropWhile_all_cons isWs sp1 d0 (dt ++ (('.' :: (f0 :: ft)) ++ (zc :: zt))) hsp1
      (digitChar_not_ws d0 hd0)]
    rw [show d0 :: (dt ++ (('.' :: (f0 :: ft)) ++ (zc :: zt))) =
        (d0 :: dt) ++ ('.' :: ((f0 :: ft) ++ (zc :: zt))) from rfl]
    rw [takeWhile_all_cons isDigitChar (d0 :: dt) '.' ((f0 :: ft) ++ (zc :: zt)) hall
      (by decide)]
    rw [if_neg (by simp : ¬((d0 :: dt).isEmpty = true))]
    rw [List.drop_left]
    have htw : ((f0 :: ft) ++ (zc :: zt)).takeWhile isDigitChar = f0 :: ft :=
      takeWhile_all_cons isDigitChar (f0 :: ft) zc zt hfsd hzd
    have hf0 : isDigitChar f0 = true := hfsd f0 (by simp)
    have hfg : fracGroup ('.' :: ((f0 :: ft) ++ (zc :: zt))) = (f0 :: ft, zc :: zt) := by
      have htw2 : List.takeWhile isDigitChar (f0 :: (ft ++ zc :: zt)) = f0 :: ft := htw
      have hdrop : List.drop (f0 :: ft).length (f0 :: (ft ++ zc :: zt)) = zc :: zt :=
        List.drop_left (f0 :: ft) (zc :: zt)
      simp [fracGroup, htw2, hf0, hdrop]
    rw [hfg]
    rw [show ((f0 :: ft, zc :: zt).2) = zc :: zt from rfl]
    rw [hunit]
    rfl

theorem parsePortSpeed_mk (l : List Char) : parsePortSpeed ⟨l⟩ = parsePortSpeedL l := rfl

/-! ## C6 -/

/-- C6: with the control-router configuration present, `monitorMikroTik`
returns success with the surviving metric populated and the failed metric
null whenever exactly one of the two command round-trips yields a value,
and returns failure only when both yield none. -/
theorem monitorMikroTik_partial_tolerance (c : ControlConfig)
    (rssiCmd speedCmd : Except String String) :
    (∀ x, getRSSI rssiCmd = some x → getPortSpeed speedCmd = none →
      (monitorMikroTik (some c) rssiCmd speedCmd).success = true ∧
      (monitorMikroTik (some c) rssiCmd speedCmd).data =
        some ⟨some x, "dBm", none, "Mbps", "--"⟩) ∧
    (∀ y, getRSSI rssiCmd = none → getPortSpeed speedCmd = some y →
      (monitorMikroTik (some c) rssiCmd speedCmd).success = true ∧
      (monitorMikroTik (some c) rssiCmd speedCmd).data =
        some ⟨none, "dBm", some y, "Mbps", formatPortSpeed (some y)⟩) ∧
    (getRSSI rssiCmd = none → getPortSpeed speedCmd = none →
      (monitorMikroTik (some c) rssiCmd speedCmd).success = false ∧
      (monitorMikroTik (some c) rssiCmd speedCmd).data = none) := by
  refine ⟨?_, ?_, ?_⟩
  · intro x hx hy
    constructor <;> simp [monitorMikroTik, hx, hy, formatPortSpeed]
  · intro y hx hy
    constructor <;> simp [monitorMikroTik, hx, hy]
  · intro hx hy
    constructor <;> simp [monitorMikroTik, hx, hy]

/-- C6 witness: a live RSSI round-trip beside a thrown link-speed command. -/
theorem monitorMikroTik_partial_tolerance_witness :
    (monitorMikroTik (some ⟨"1.2.3.4", "ether2"⟩) (.ok "rssi: -56")
      (.error "net down")).success = true := by
  have h := (monitorMikroTik_partial_tolerance ⟨"1.2.3.4", "ether2"⟩ (.ok "rssi: -56")
    (.error "net down")).1 (-56) (by decide) rfl
  exact h.1

/-! ## C7 -/

/-- C7: `parsePortSpeed` yields 1000, 100 and 10 on the three canonical
inputs, and in general, on any input whose text embeds a `rate:` field
(with no earlier `r`/`R` that could start a competing match) followed by a
decimal number and a case-insensitive megabit or gigabit unit token, it
returns the megabit count: the denoted decimal value, multiplied by 1000
for gigabit units, rounded half-up. -/
theorem parsePortSpeed_normalization :
    parsePortSpeed "rate: 1Gbps" = some 1000 ∧
    parsePortSpeed "rate: 100Mbps" = some 100 ∧
    parsePortSpeed "rate: 10Mbps" = some 10 ∧
    (∀ (pre sp1 ds fs sp2 u rest : List Char),
      (∀ c ∈ pre, c.toLower ≠ 'r') →
      (∀ c ∈ sp1, isWs c = true) →
      ds ≠ [] → (∀ c ∈ ds, isDigitChar c = true) →
      (fs = [] ∨ (fs ≠ [] ∧ ∀ c ∈ fs, isDigitChar c = true)) →
      (∀ c ∈ sp2, isWs c = true) →
      (u.map Char.toLower = ['m', 'b', 'p', 's'] ∨
        u.map Char.toLower = ['g', 'b', 'p', 's']) →
      parsePortSpeed ⟨pre ++ ['r', 'a', 't', 'e', ':'] ++ sp1 ++ ds ++
          (if fs = [] then [] else '.' :: fs) ++ sp2 ++ u ++ rest⟩ =
        some (if u.map Char.toLower = ['g', 'b', 'p', 's'] then
            roundHalfUp (decimalNum ds fs * 1000) (10 ^ fs.length)
          else roundHalfUp (decimalNum ds fs) (10 ^ fs.length))) := by
  refine ⟨by decide, by decide, by decide, ?_⟩
  intro pre sp1 ds fs sp2 u rest hpre hsp1 hds hdsd hfs hsp2 hu
  obtain ⟨d0, dt, rfl⟩ : ∃ a b, ds = a :: b := by
    cases ds with
    | nil => exact absurd rfl hds
    | cons a b => exact ⟨a, b, rfl⟩
  obtain ⟨uh, ut, rfl⟩ : ∃ a b, u = a :: b := by
    rcases hu with h | h <;>
      (cases u with
       | nil => simp at h
       | cons a b => exact ⟨a, b, rfl⟩)
  rw [parsePortSpeed_mk]
  unfold parsePortSpeedL
  simp only [List.append_assoc]
  rw [findRate_append_no_r pre _ hpre]
  rw [show (['r', 'a', 't', 'e', ':'] : List Char) ++ (sp1 ++ ((d0 :: dt) ++
      ((if fs = [] then [] else '.' :: fs) ++ (sp2 ++ ((uh :: ut) ++ rest))))) =
      'r' :: (['a', 't', 'e', ':'] ++ (sp1 ++ ((d0 :: dt) ++
      ((if fs = [] then [] else '.' :: fs) ++ (sp2 ++ (uh :: (ut ++ rest))))))) from rfl]
  simp only [findRate]
  rw [tryRateAt_structured sp1 d0 dt fs sp2 uh ut rest hsp1 (hdsd d0 (by simp))
    (fun c hc => hdsd c (by simp [hc])) hfs hsp2 hu]
  by_cases hg : (uh :: ut).map Char.toLower = ['g', 'b', 'p', 's']
  · simp [hg]
  · simp only [hg, if_false]
    simp [hg]

/-- C7 witness: the general clause applied to an embedded, fractional,
case-mixed gigabit sample. -/
theorem parsePortSpeed_normalization_witness :
    parsePortSpeed "x rate: 2.5 GBPS z" = some 2500 := by
  have h := parsePortSpeed_normalization.2.2.2 "x ".data [' '] ['2'] ['5'] [' ']
    "GBPS".data " z".data (by decide) (by decide) (by decide) (by decide) (by decide)
    (by decide) (by decide)
  have heq : (⟨"x ".data ++ ['r', 'a', 't', 'e', ':'] ++ [' '] ++ ['2'] ++
      (if (['5'] : List Char) = [] then [] else '.' :: ['5']) ++ [' '] ++
      "GBPS".data ++ " z".data⟩ : String) = "x rate: 2.5 GBPS z" := by decide
  rw [heq] at h
  rw [h]
  decide

/-! ## C5 -/

/-- C5 counterexample: `executeCommand` resolves (treats as success) a result
whose standard-error contains the explicit marker `error`, because the exit
code is 0 — refuting "failure if and only if stderr contains a marker". -/
theorem executeCommand_zero_exit_marker_resolves :
    rejected (executeCommandClose 0 "out" "error: something bad") = false ∧
    hasErrMarker "error: something bad" = true := by
  constructor
  · rfl
  · decide

/-- C5 (amended): a control-router command is rejected iff its exit code is
non-zero AND stderr carries a `failure`/`error`/`invalid` marker (so zero-exit
results always resolve, marker or not), while a command tunneled to the device
is rejected iff stderr carries a marker, regardless of exit code; in both
dialects a non-zero exit with benign stderr resolves as success. -/
theorem command_failure_marker_policy (code : Int) (stdout stderr : String) :
    (rejected (executeCommandClose code stdout stderr) = true ↔
      (code ≠ 0 ∧ hasErrMarker stderr = true)) ∧
    (rejected (executeOnLHG60GClose stdout stderr) = true ↔
      hasErrMarker stderr = true) := by
  constructor
  · unfold executeCommandClose
    by_cases h0 : code = 0
    · simp [h0, rejected]
    · by_cases htr : jsTrim stderr = ""
      · have hm := hasErrMarker_false_of_trim_empty stderr htr
        have hm2 := hm
        simp only [hasErrMarker, Bool.or_eq_false_iff] at hm2
        simp [h0, htr, hm2.1.1, hm2.1.2, rejected, hm]
      · have hcond : ¬(code = 0 ∨ (jsTrim stderr = "" ∧
            jsIncludes stderr "failure" = false ∧ jsIncludes stderr "error" = false)) := by
          intro h
          rcases h with h | h
          · exact h0 h
          · exact htr h.1
        rw [if_neg hcond]
        by_cases hmk : (jsIncludes stderr "failure" || jsIncludes stderr "error" ||
            jsIncludes stderr "invalid") = true
        · simp [hmk, rejected, hasErrMarker, h0]
        · simp only [Bool.not_eq_true] at hmk
          simp [hmk, rejected, hasErrMarker, h0]
  · unfold executeOnLHG60GClose
    by_cases hmk : (jsIncludes stderr "failure" || jsIncludes stderr "error" ||
        jsIncludes stderr "invalid") = true
    · simp [hmk, rejected, hasErrMarker]
    · simp only [Bool.not_eq_true] at hmk
      simp [hmk, rejected, hasErrMarker]


/-! ## C8: optic info extraction -/

theorem hexVal_hexDigitOf : ∀ n < 16, hexVal (hexDigitOf n) = n := by decide

theorem isHex_hexDigitOf : ∀ n < 16, isHexDigitChar (hexDigitOf n) = true := by decide

theorem hexDigitOf_ne : ∀ n < 16, hexDigitOf n ≠ '"' ∧ hexDigitOf n ≠ ')' := by decide

theorem decodeHex_hexEncode (l : List Char) (h : ∀ c ∈ l, c.toNat < 256) :
    decodeHex (hexEncode l) = l := by
  induction l with
  | nil => rfl
  | cons c t ih =>
    have hc : c.toNat < 256 := h c (by simp)
    show decodeHex ('\\' :: 'x' :: hexDigitOf (c.toNat / 16) ::
      hexDigitOf (c.toNat % 16) :: hexEncode t) = c :: t
    have h1 : isHexDigitChar (hexDigitOf (c.toNat / 16)) = true :=
      isHex_hexDigitOf _ (by omega)
    have h2 : isHexDigitChar (hexDigitOf (c.toNat % 16)) = true :=
      isHex_hexDigitOf _ (by omega)
    simp only [decodeHex]
    rw [if_pos (by simp [h1, h2])]
    rw [hexVal_hexDigitOf _ (by omega), hexVal_hexDigitOf _ (by omega)]
    rw [show c.toNat / 16 * 16 + c.toNat % 16 = c.toNat from by
      have := Nat.div_add_mod c.toNat 16
      omega]
    rw [Char.ofNat_toNat]
    rw [ih (fun x hx => h x (by simp [hx]))]

theorem extractQuotedAux_scan (v : List Char) (r : List Char) (acc : List Char)
    (hv : '"' ∉ v) :
    extractQuotedAux (v ++ '"' :: r) true acc = (acc ++ v) :: extractQuotedAux r false [] := by
  induction v generalizing acc with
  | nil => simp [extractQuotedAux]
  | cons c ct ih =>
    have hc : c ≠ '"' := fun he => hv (he ▸ List.mem_cons_self c ct)
    simp only [List.cons_append, extractQuotedAux, if_neg hc]
    rw [show List.append ct ('"' :: r) = ct ++ '"' :: r from rfl]
    rw [ih (acc ++ [c]) (fun hm => hv (List.mem_cons.mpr (Or.inr hm)))]
    simp

theorem extractQuoted_render (values : List String) (hq : ∀ v ∈ values, '"' ∉ v.data) :
    extractQuoted (renderParamsL values) = values.map String.data := by
  unfold extractQuoted
  induction values with
  | nil => rfl
  | cons v t ih =>
    show extractQuotedAux ('"' :: (v.data ++ ('"' :: (',' :: renderParamsL t)))) false [] =
      v.data :: t.map String.data
    rw [show extractQuotedAux ('"' :: (v.data ++ ('"' :: (',' :: renderParamsL t)))) false [] =
      extractQuotedAux (v.data ++ ('"' :: (',' :: renderParamsL t))) true [] from by
        simp [extractQuotedAux]]
    rw [extractQuotedAux_scan v.data (',' :: renderParamsL t) [] (hq v (by simp))]
    rw [show extractQuotedAux (',' :: renderParamsL t) false [] =
      extractQuotedAux (renderParamsL t) false [] from by
        simp only [extractQuotedAux]
        rw [if_neg (by decide : ¬(',' : Char) = '"')]]
    rw [ih (fun x hx => hq x (by simp [hx]))]
    simp

theorem tryOpticAt_render_key (R : List Char) :
    tryOpticAt ("var opticInfos = new Array(new stOpticInfo(".data ++ R) =
      (if (R.takeWhile (fun c => c != ')')).isEmpty then none
       else if R.drop (R.takeWhile (fun c => c != ')')).length = [] then none
       else some (R.takeWhile (fun c => c != ')'))) := rfl

theorem findOptic_render (params : List Char) (hne : params ≠ [])
    (hp : ∀ c ∈ params, c ≠ ')') :
    findOptic ("var opticInfos = new Array(new stOpticInfo(".data ++ (params ++ [')'])) =
      some params := by
  have htake : ((params ++ [')']).takeWhile (fun c => c != ')')) = params := by
    have h := takeWhile_all_cons (fun c => c != ')') params ')' []
      (fun x hx => by simpa using hp x hx) (by decide)
    simpa using h
  have hkey := tryOpticAt_render_key (params ++ [')'])
  rw [htake] at hkey
  rw [if_neg (by simp [hne]), List.drop_left, if_neg (by simp)] at hkey
  rw [show "var opticInfos = new Array(new stOpticInfo(".data ++ (params ++ [')']) =
    'v' :: ("ar opticInfos = new Array(new stOpticInfo(".data ++ (params ++ [')'])) from
    rfl] at hkey ⊢
  simp only [findOptic, hkey]

theorem hexEncode_mem_ne (l : List Char) (hl : ∀ c ∈ l, c.toNat < 256) :
    ∀ x ∈ hexEncode l, x ≠ '"' ∧ x ≠ ')' := by
  induction l with
  | nil =>
    intro x h
    simp [hexEncode] at h
  | cons c t ih =>
    intro x h
    have hc : c.toNat < 256 := hl c (by simp)
    rw [show hexEncode (c :: t) = hexEncodeChar c ++ hexEncode t from rfl] at h
    rcases List.mem_append.mp h with h1 | h1
    · simp only [hexEncodeChar, List.mem_cons, List.not_mem_nil, or_false] at h1
      rcases h1 with rfl | rfl | rfl | rfl
      · exact ⟨by decide, by decide⟩
      · exact ⟨by decide, by decide⟩
      · exact hexDigitOf_ne _ (by omega)
      · exact hexDigitOf_ne _ (by omega)
    · exact ih (fun y hy => hl y (by simp [hy])) x h1

theorem jsIncludes_hexEncodeStr_marker (s : String) (h : s.data ≠ []) :
    jsIncludes (hexEncodeStr s) "\\x" = true := by
  obtain ⟨c, t, he⟩ : ∃ c t, s.data = c :: t := by
    cases hs : s.data with
    | nil => exact absurd hs h
    | cons a b => exact ⟨a, b, rfl⟩
  unfold jsIncludes hexEncodeStr
  rw [show (⟨hexEncode s.data⟩ : String).data = hexEncode s.data from rfl, he]
  rw [show ("\\x".data : List Char) = ['\\', 'x'] from rfl]
  rw [show hexEncode (c :: t) = ['\\', 'x'] ++ (hexDigitOf (c.toNat / 16) ::
    hexDigitOf (c.toNat % 16) :: hexEncode t) from rfl]
  exact containsSub_append_self _ _

theorem detectUIType_hexEncode (s : String) (h : s.data ≠ []) :
    detectUIType (hexEncodeStr s) = "blue" := by
  simp [detectUIType, jsIncludes_hexEncodeStr_marker s h]

theorem detectUIType_plain (s : String) (h : jsIncludes s "\\x" = false) :
    detectUIType s = "red" := by
  simp [detectUIType, h]

theorem decodeHexString_hexEncodeStr (s : String) (hs : ∀ c ∈ s.data, c.toNat < 256) :
    decodeHexString (hexEncodeStr s) = s := by
  unfold decodeHexString hexEncodeStr
  rw [show (⟨hexEncode s.data⟩ : String).data = hexEncode s.data from rfl]
  rw [decodeHex_hexEncode s.data hs]

theorem renderParamsL_ne_rparen (values : List String)
    (hp : ∀ v ∈ values, ∀ c ∈ v.data, c ≠ ')') :
    ∀ c ∈ renderParamsL values, c ≠ ')' := by
  induction values with
  | nil =>
    intro c h
    simp [renderParamsL] at h
  | cons v t ih =>
    intro c h
    simp only [renderParamsL, List.mem_cons, List.mem_append] at h
    rcases h with rfl | h
    · decide
    · rcases h with h | h
      · exact hp v (by simp) c h
      · rcases h with rfl | rfl | h
        · decide
        · decide
        · exact ih (fun w hw => hp w (by simp [hw])) c h

theorem extractOpticInfo_render (values : List String) (hne : values ≠ [])
    (hq : ∀ v ∈ values, '"' ∉ v.data) (hp : ∀ v ∈ values, ∀ c ∈ v.data, c ≠ ')') :
    extractOpticInfo (renderOpticHtml values) = extractOpticValues values := by
  unfold extractOpticInfo renderOpticHtml
  rw [show (⟨"var opticInfos = new Array(new stOpticInfo(".data ++
      (renderParamsL values ++ [')'])⟩ : String).data =
      "var opticInfos = new Array(new stOpticInfo(".data ++
      (renderParamsL values ++ [')']) from rfl]
  have hrp_ne : renderParamsL values ≠ [] := by
    cases values with
    | nil => exact absurd rfl hne
    | cons v t => simp [renderParamsL]
  rw [findOptic_render _ hrp_ne (renderParamsL_ne_rparen values hp)]
  show extractOpticValues ((extractQuoted (renderParamsL values)).map fun l =>
    (⟨l⟩ : String)) = extractOpticValues values
  rw [extractQuoted_render values hq]
  rw [show (values.map String.data).map (fun l => (⟨l⟩ : String)) = values from by
    rw [List.map_map]
    have he : ((fun l => (⟨l⟩ : String)) ∘ String.data) = id := by
      funext v
      rfl
    rw [he, List.map_id]]

theorem extractOpticValues_five (a b c d e : String) :
    extractOpticValues [a, b, c, d, e] =
      some { txPower := if detectUIType c = "blue" then jsTrim (decodeHexString b)
               else jsTrim b,
             rxPower := if detectUIType c = "blue" then jsTrim (decodeHexString c)
               else jsTrim c,
             voltage := if detectUIType c = "blue" then jsTrim (decodeHexString d)
               else jsTrim d,
             temperature := if detectUIType c = "blue" then jsTrim (decodeHexString e)
               else jsTrim e,
             uiType := detectUIType c } := rfl

/-- C8: On a page whose `opticInfos` declaration carries hex-escaped values the
extractor reports the blue UI and decodes each field before trimming; on the same
values left plain it reports the red UI and only trims. Both variants yield the
same four optical readings. -/
theorem extractOpticInfo_hex_plain_equiv (v0 tx rx volt temp : String)
    (h0q : '"' ∉ v0.data) (h0p : ∀ c ∈ v0.data, c ≠ ')')
    (htx : ∀ c ∈ tx.data, c.toNat < 256) (hrx : ∀ c ∈ rx.data, c.toNat < 256)
    (hvo : ∀ c ∈ volt.data, c.toNat < 256) (hte : ∀ c ∈ temp.data, c.toNat < 256)
    (htxq : '"' ∉ tx.data) (hrxq : '"' ∉ rx.data) (hvoq : '"' ∉ volt.data)
    (hteq : '"' ∉ temp.data)
    (htxp : ∀ c ∈ tx.data, c ≠ ')') (hrxp : ∀ c ∈ rx.data, c ≠ ')')
    (hvop : ∀ c ∈ volt.data, c ≠ ')') (htep : ∀ c ∈ temp.data, c ≠ ')')
    (hrxne : rx.data ≠ []) (hplain : jsIncludes rx "\\x" = false) :
    extractOpticInfo (renderOpticHtml
        [v0, hexEncodeStr tx, hexEncodeStr rx, hexEncodeStr volt, hexEncodeStr temp]) =
      some ⟨jsTrim tx, jsTrim rx, jsTrim volt, jsTrim temp, "blue"⟩ ∧
    extractOpticInfo (renderOpticHtml [v0, tx, rx, volt, temp]) =
      some ⟨jsTrim tx, jsTrim rx, jsTrim volt, jsTrim temp, "red"⟩ := by
  have hexq : ∀ s : String, (∀ c ∈ s.data, c.toNat < 256) → '"' ∉ (hexEncodeStr s).data :=
    fun s hs hm => ((hexEncode_mem_ne s.data hs) '"' hm).1 rfl
  have hexp : ∀ s : String, (∀ c ∈ s.data, c.toNat < 256) →
      ∀ c ∈ (hexEncodeStr s).data, c ≠ ')' :=
    fun s hs c hm => ((hexEncode_mem_ne s.data hs) c hm).2
  have hq1 : ∀ v ∈ [v0, hexEncodeStr tx, hexEncodeStr rx, hexEncodeStr volt,
      hexEncodeStr temp], '"' ∉ v.data := by
    intro v hv
    simp only [List.mem_cons, List.not_mem_nil, or_false] at hv
    rcases hv with rfl | rfl | rfl | rfl | rfl
    · exact h0q
    · exact hexq tx htx
    · exact hexq rx hrx
    · exact hexq volt hvo
    · exact hexq temp hte
  have hp1 : ∀ v ∈ [v0, hexEncodeStr tx, hexEncodeStr rx, hexEncodeStr volt,
      hexEncodeStr temp], ∀ c ∈ v.data, c ≠ ')' := by
    intro v hv
    simp only [List.mem_cons, List.not_mem_nil, or_false] at hv
    rcases hv with rfl | rfl | rfl | rfl | rfl
    · exact h0p
    · exact hexp tx htx
    · exact hexp rx hrx
    · exact hexp volt hvo
    · exact hexp temp hte
  have hq2 : ∀ v ∈ [v0, tx, rx, volt, temp], '"' ∉ v.data := by
    intro v hv
    simp only [List.mem_cons, List.not_mem_nil, or_false] at hv
    rcases hv with rfl | rfl | rfl | rfl | rfl
    · exact h0q
    · exact htxq
    · exact hrxq
    · exact hvoq
    · exact hteq
  have hp2 : ∀ v ∈ [v0, tx, rx, volt, temp], ∀ c ∈ v.data, c ≠ ')' := by
    intro v hv
    simp only [List.mem_cons, List.not_mem_nil, or_false] at hv
    rcases hv with rfl | rfl | rfl | rfl | rfl
    · exact h0p
    · exact htxp
    · exact hrxp
    · exact hvop
    · exact htep
  constructor
  · rw [extractOpticInfo_render _ (by simp) hq1 hp1, extractOpticValues_five]
    rw [detectUIType_hexEncode rx hrxne]
    simp only [if_pos rfl]
    rw [decodeHexString_hexEncodeStr tx htx, decodeHexString_hexEncodeStr rx hrx,
      decodeHexString_hexEncodeStr volt hvo, decodeHexString_hexEncodeStr temp hte]
    simp
  · rw [extractOpticInfo_render _ (by simp) hq2 hp2, extractOpticValues_five]
    rw [detectUIType_plain rx hplain]
    simp only [if_neg (by decide : ¬ ("red" : String) = "blue")]

theorem extractOpticInfo_hex_plain_equiv_witness :
    extractOpticInfo (renderOpticHtml
        ["0", hexEncodeStr "1.50", hexEncodeStr "-23.87", hexEncodeStr "3300",
         hexEncodeStr "45"]) =
      some ⟨"1.50", "-23.87", "3300", "45", "blue"⟩ ∧
    extractOpticInfo (renderOpticHtml ["0", "1.50", "-23.87", "3300", "45"]) =
      some ⟨"1.50", "-23.87", "3300", "45", "red"⟩ :=
  extractOpticInfo_hex_plain_equiv "0" "1.50" "-23.87" "3300" "45"
    (by decide) (by decide) (by decide) (by decide) (by decide) (by decide)
    (by decide) (by decide) (by decide) (by decide) (by decide) (by decide)
    (by decide) (by decide) (by decide) (by decide)


/-! ## C9: retry exhaustion -/

theorem jsOrStrOpt_some_ne (s d : String) (h : s ≠ "") : jsOrStrOpt (some s) d = s := by
  simp [jsOrStrOpt, jsOr, h]

theorem retryLoop_all_fail (ext : Nat → AttemptOutcome) (delay maxA : Nat)
    (hfail : ∀ a, attemptFails (ext a) = true)
    (hne : attemptErrMsg (ext maxA) ≠ "") :
    ∀ k, 0 < k → k ≤ maxA → ∀ le,
      retryLoop ext delay maxA k le =
        ({ success := false, error := some (attemptErrMsg (ext maxA)) },
         (List.range' (maxA - k + 1) k).flatMap (fun a =>
           RetryEvent.attempt a ::
             (if a < maxA then [RetryEvent.wait delay] else []))) := by
  intro k
  induction k with
  | zero => intro h; omega
  | succ k ih =>
    intro _ hle le
    cases k with
    | zero =>
      have hfa := hfail maxA
      have hone : maxA - 1 + 1 = maxA := by omega
      unfold retryLoop
      rw [Nat.sub_zero]
      cases hext : ext maxA with
      | ret r =>
        rw [hext] at hfa hne
        have hrs : r.success = false := by
          simpa [attemptFails] using hfa
        have hne2 : jsOrStrOpt r.error "Unknown error" ≠ "" := hne
        dsimp only
        rw [if_neg (by simp [hrs])]
        unfold retryLoop
        rw [hone]
        simp [jsOrStrOpt_some_ne _ _ hne2, attemptErrMsg, List.range', Nat.lt_irrefl]
      | thrown msg =>
        rw [hext] at hne
        have hne2 : msg ≠ "" := hne
        dsimp only
        unfold retryLoop
        rw [hone]
        simp [jsOrStrOpt_some_ne _ _ hne2, attemptErrMsg, List.range', Nat.lt_irrefl]
    | succ k2 =>
      have hfa := hfail (maxA - (k2 + 1))
      have hrec := ih (by omega) (by omega)
      have hr1 : maxA - (k2 + 1 + 1) + 1 = maxA - (k2 + 1) := by omega
      have hlt : maxA - (k2 + 1) < maxA := by omega
      unfold retryLoop
      cases hext : ext (maxA - (k2 + 1)) with
      | ret r =>
        rw [hext] at hfa
        have hrs : r.success = false := by
          simpa [attemptFails] using hfa
        dsimp only
        rw [if_neg (by simp [hrs])]
        rw [hrec (some (jsOrStrOpt r.error "Unknown error"))]
        rw [show List.range' (maxA - (k2 + 1 + 1) + 1) (k2 + 1 + 1) =
          (maxA - (k2 + 1 + 1) + 1) :: List.range' (maxA - (k2 + 1 + 1) + 1 + 1) (k2 + 1)
          from rfl]
        rw [hr1, List.flatMap_cons]
        simp [hlt]
      | thrown msg =>
        dsimp only
        rw [hrec (some msg)]
        rw [show List.range' (maxA - (k2 + 1 + 1) + 1) (k2 + 1 + 1) =
          (maxA - (k2 + 1 + 1) + 1) :: List.range' (maxA - (k2 + 1 + 1) + 1 + 1) (k2 + 1)
          from rfl]
        rw [hr1, List.flatMap_cons]
        simp [hlt]

/-- C9: when the telemetry extractor fails on every attempt, `monitorWithRetry`
performs exactly `retryAttempts` attempts (default 3 when unset), numbered 1 up
to that count, waits `retryDelay * 1000` milliseconds (default 3 when unset)
after each attempt except the last, and returns `success = false` carrying the
last observed error message. -/
theorem monitorWithRetry_exhaustion (ext : Nat → AttemptOutcome)
    (retryAttempts retryDelay : Option Nat)
    (hfail : ∀ a, attemptFails (ext a) = true)
    (hne : attemptErrMsg (ext (jsOrNat retryAttempts 3)) ≠ "") :
    monitorWithRetry ext retryAttempts retryDelay =
      ({ success := false,
         error := some (attemptErrMsg (ext (jsOrNat retryAttempts 3))) },
       (List.range' 1 (jsOrNat retryAttempts 3)).flatMap (fun a =>
         RetryEvent.attempt a ::
           (if a < jsOrNat retryAttempts 3 then
             [RetryEvent.wait ((jsOrNat retryDelay 3) * 1000)]
            else []))) := by
  have hpos : 0 < jsOrNat retryAttempts 3 := by
    unfold jsOrNat
    cases retryAttempts with
    | none => decide
    | some n =>
      dsimp only
      split <;> omega
  have h := retryLoop_all_fail ext ((jsOrNat retryDelay 3) * 1000)
    (jsOrNat retryAttempts 3) hfail hne (jsOrNat retryAttempts 3) hpos le_rfl none
  rw [Nat.sub_self] at h
  exact h

theorem monitorWithRetry_exhaustion_witness :
    monitorWithRetry (fun _ => AttemptOutcome.thrown "boom") (some 2) (some 5) =
      ({ success := false, error := some "boom" },
       [RetryEvent.attempt 1, RetryEvent.wait 5000, RetryEvent.attempt 2]) :=
  (monitorWithRetry_exhaustion (fun _ => AttemptOutcome.thrown "boom") (some 2) (some 5)
    (fun _ => rfl) (by decide)).trans (by decide)


/-! ## C10: unreachable login-failure branch -/

theorem scanLoginCookies_success (hs : List String) :
    ∀ sc, (scanLoginCookies hs sc).success = true := by
  induction hs with
  | nil => intro sc; rfl
  | cons c rest ih =>
    intro sc
    unfold scanLoginCookies
    by_cases h1 : jsStartsWith c "Cookie=" = true
    · rw [if_pos h1]
      by_cases h2 : jsIncludes (cookieNewVal c) "sid=" = true
      · rw [if_pos h2]
      · rw [if_neg h2]
        exact ih _
    · rw [if_neg h1]
      exact ih _

/-- C10: every response path through `login` resolves with `success = true` —
failure is signalled only by throwing — so the `Login failed` branch of
`monitorONU` is unreachable, and a failed poll's error message always
originates from a thrown exception: the login request chain or the optical
data fetch. -/
theorem login_success_invariant :
    (∀ env : OnuEnv, ∀ r, login env = Except.ok r → r.success = true) ∧
    (∀ env : MonitorOnuEnv, (monitorONU env).success = false →
      ∃ e, (login env.onu = Except.error e ∨ env.rxData = Except.error e) ∧
        (monitorONU env).error = some e) := by
  have hlogin : ∀ env : OnuEnv, ∀ r, login env = Except.ok r → r.success = true := by
    intro env r h
    unfold login at h
    cases hp : env.loginPage with
    | error e => simp [hp] at h
    | ok page =>
      simp only [hp] at h
      cases hlr : env.loginResp (resolveCsrf page env.ajaxToken) with
      | error e => simp [hlr] at h
      | ok resp =>
        simp only [hlr] at h
        cases hsc : resp.setCookie with
        | some hsl =>
          simp only [hsc, Except.ok.injEq] at h
          rw [← h]
          exact scanLoginCookies_success hsl _
        | none =>
          simp only [hsc, Except.ok.injEq] at h
          rw [← h]
  refine ⟨hlogin, ?_⟩
  intro env hfail
  unfold monitorONU at hfail ⊢
  cases hl : login env.onu with
  | error e =>
    exact ⟨e, Or.inl rfl, by simp [hl]⟩
  | ok r =>
    have hr : r.success = true := hlogin env.onu r hl
    simp only [hl, hr] at hfail ⊢
    cases hrx : env.rxData with
    | error e =>
      exact ⟨e, Or.inr rfl, by simp [hrx]⟩
    | ok d =>
      simp [hrx] at hfail


theorem login_success_invariant_witness :
    ({ success := true, cookies := [] } : LoginResult).success = true ∧
    ∃ e, (login (⟨Except.ok ⟨none, ""⟩, Except.error "x",
          fun _ => Except.ok ⟨none, ""⟩⟩ : OnuEnv) = Except.error e ∨
        (⟨⟨Except.ok ⟨none, ""⟩, Except.error "x",
          fun _ => Except.ok ⟨none, ""⟩⟩, Except.error "boom"⟩ : MonitorOnuEnv).rxData =
          Except.error e) ∧
      (monitorONU ⟨⟨Except.ok ⟨none, ""⟩, Except.error "x",
          fun _ => Except.ok ⟨none, ""⟩⟩, Except.error "boom"⟩).error = some e :=
  ⟨login_success_invariant.1
      ⟨Except.ok ⟨none, ""⟩, Except.error "x", fun _ => Except.ok ⟨none, ""⟩⟩
      { success := true, cookies := [] } rfl,
   login_success_invariant.2
      ⟨⟨Except.ok ⟨none, ""⟩, Except.error "x", fun _ => Except.ok ⟨none, ""⟩⟩,
        Except.error "boom"⟩ rfl⟩

end Onu
